import Mathlib

/-!
Verification of the print-job cost estimator (price calculator component).

The source is a TypeScript React component; its computational core —
`calculatePriceForItem` and the body of `handleCalculate` (grouping,
best-candidate selection, size-snap and quantity-tier suggestions,
priority sorting) — is embedded here as executable Lean definitions.
JavaScript numbers are modelled as exact rationals (`ℚ`); `Math.round`,
`Math.ceil` and `parseFloat`/`parseInt` string semantics are modelled
explicitly.  `NaN`-producing inputs (unparseable numeric strings) are
modelled with `Option`: `none` stands for `NaN`, and JS `Infinity`
literals and hexadecimal `parseInt` prefixes are not modelled.
-/

set_option maxRecDepth 8000
set_option exponentiation.threshold 2000

/-- JS Math.round: round half toward positive infinity. -/
def jsRound (q : ℚ) : ℤ := ⌊q + 1/2⌋

/-- JS Math.ceil. -/
def jsCeil (q : ℚ) : ℤ := ⌈q⌉

/-- Numeric value of a list of decimal digit characters (most significant first). -/
def digitsVal (ds : List Char) : ℕ :=
  ds.foldl (fun a c => 10 * a + (c.toNat - 48)) 0

/-- Value of a fractional digit string: digits `ds` standing after a decimal point. -/
def fracVal (ds : List Char) : ℚ :=
  (digitsVal ds : ℚ) / 10 ^ ds.length

/-- Exponent part of a JS float literal: optional sign then digits; an empty
digit run contributes exponent 0 (as `parseFloat` stops before an incomplete
exponent). -/
def expVal (t : List Char) : ℤ :=
  let st := match t with
    | '+' :: u => ((1 : ℤ), u)
    | '-' :: u => ((-1 : ℤ), u)
    | _ => ((1 : ℤ), t)
  let ds := st.2.takeWhile Char.isDigit
  if ds.isEmpty then 0 else st.1 * (digitsVal ds : ℤ)

/-- Unsigned part of JS parseFloat: integer digits, optional fraction, optional
exponent; `none` models `NaN` (no digits at all). -/
def jsParseFloatAux (cs : List Char) : Option ℚ :=
  let ip := cs.takeWhile Char.isDigit
  let rest := cs.dropWhile Char.isDigit
  let fr := match rest with
    | '.' :: t => (t.takeWhile Char.isDigit, t.dropWhile Char.isDigit)
    | _ => (([] : List Char), rest)
  if ip.isEmpty ∧ fr.1.isEmpty then none
  else
    let mantissa : ℚ := (digitsVal ip : ℚ) + fracVal fr.1
    let e : ℤ := match fr.2 with
      | 'e' :: t => expVal t
      | 'E' :: t => expVal t
      | _ => 0
    some (mantissa * 10 ^ e)

/-- JS parseFloat on a character list: skip leading whitespace, optional sign,
then the longest valid float-literal prefix.  `none` models `NaN`. -/
def jsParseFloatCore (cs : List Char) : Option ℚ :=
  let t := cs.dropWhile Char.isWhitespace
  match t with
  | '-' :: u => (jsParseFloatAux u).map (fun x => -x)
  | '+' :: u => jsParseFloatAux u
  | _ => jsParseFloatAux t

/-- JS parseFloat on a string. -/
def jsParseFloat (s : String) : Option ℚ := jsParseFloatCore s.toList

/-- JS parseInt (radix 10): skip whitespace, optional sign, leading digits;
`none` models `NaN`. -/
def jsParseInt (s : String) : Option ℤ :=
  let t := s.toList.dropWhile Char.isWhitespace
  let st := match t with
    | '-' :: u => ((-1 : ℤ), u)
    | '+' :: u => ((1 : ℤ), u)
    | _ => ((1 : ℤ), t)
  let ds := st.2.takeWhile Char.isDigit
  if ds.isEmpty then none else some (st.1 * (digitsVal ds : ℤ))

/-- Replace the first occurrence of character `c` by `d`
(JS `String.prototype.replace` with a string pattern). -/
def replaceFirstChar (c d : Char) : List Char → List Char
  | [] => []
  | x :: xs => if x = c then d :: xs else x :: replaceFirstChar c d xs

/-- Remove the first occurrence of the substring "cm"
(JS `replace('cm', '')`). -/
def removeFirstCM : List Char → List Char
  | [] => []
  | 'c' :: 'm' :: t => t
  | x :: xs => x :: removeFirstCM xs

/-- Source `parsePrice`: strip thousands dots, keep only digits and commas,
turn the first comma into a decimal point, then parseFloat.
`none` models the `NaN` outcome. -/
def parsePriceQ (s : String) : Option ℚ :=
  jsParseFloatCore (replaceFirstChar ',' '.'
    (s.toList.filter (fun c => c.isDigit ∨ c = ',')))

/-- Parsed price with the (never legitimately reached) `NaN` case mapped to 0;
theorems about prices carry a parseability hypothesis making this exact. -/
def parsePriceD (s : String) : ℚ := (parsePriceQ s).getD 0

/-- Characters admitted by the size-label regex groups. -/
def sizeChar (c : Char) : Bool := c.isDigit || c = '.'

/-- Source `parseSize`: lower-case, strip whitespace, drop the first "cm",
then match the regex pattern of number, x or star, number.  Returns `none`
when the regex fails to match and also when a matched all-dots group would
make JS `parseFloat` yield `NaN`. -/
def parseSizeCore (cs : List Char) : Option (ℚ × ℚ) :=
  let cl := removeFirstCM ((cs.map Char.toLower).filter (fun c => ¬ c.isWhitespace))
  let d1 := cl.takeWhile sizeChar
  let rest := cl.dropWhile sizeChar
  if d1.isEmpty then none
  else
    match rest with
    | x :: t =>
      if x = 'x' ∨ x = '*' then
        let d2 := t.takeWhile sizeChar
        if d2.isEmpty then none
        else
          match jsParseFloatCore d1, jsParseFloatCore d2 with
          | some a, some b => some (a, b)
          | _, _ => none
      else none
    | [] => none

/-- Source `parseSize` on a string. -/
def parseSize (s : String) : Option (ℚ × ℚ) := parseSizeCore s.toList

/-- Digits of the quantity field, as JS
`parseInt(s.replace(/[^\d]/g, ''))`: `none` models `NaN` (no digit). -/
def parseMiktarRaw (s : String) : Option ℕ :=
  let ds := s.toList.filter Char.isDigit
  if ds.isEmpty then none else some (digitsVal ds)

/-- Source `parseInt(item.miktar.replace(/[^\d]/g, '')) || 1000`:
`NaN` and 0 both fall back to 1000. -/
def parseMiktar (s : String) : ℕ :=
  match parseMiktarRaw s with
  | none => 1000
  | some 0 => 1000
  | some n => n

/-- A catalog row (source `PriceItem`): category, size label, product code,
description, quantity tier and price, all free text as supplied. -/
structure PriceItem where
  kategori : String
  ebat : String
  kod : String
  aciklama : String
  miktar : String
  fiyat : String
deriving DecidableEq, Inhabited

/-- Categories using the multiplier / cut logic. -/
def MULTIPLIER_CATEGORIES : List String :=
  ["Kartvizit", "Broşür", "El İlanı", "Etiket", "Magnet", "200 Gr. Kuşe"]

/-- The fixed quantity tiers offered in the dropdown. -/
def QUANTITY_OPTIONS : List ℤ :=
  [1000, 2000, 3000, 4000, 5000, 6000, 8000, 10000, 12000, 20000]

/-- Strategy-specific detail payload of a calculation outcome. -/
inductive CalcDetails where
  | formula (userW userH : ℚ)
  | mult (multiplier qtyRatio : ℚ)
deriving DecidableEq, Inhabited

/-- Outcome of `calculatePriceForItem` for one catalog entry. -/
structure CalcOutcome where
  price : ℚ
  strategy : String
  needsCut : Bool
  details : CalcDetails
  baseDims : Option (ℚ × ℚ) := none
deriving DecidableEq, Inhabited

/-- Fit test: the requested length `u` is within 0.5 mm of the rounded
multiple of the base length `b` (source `checkFit`). -/
def checkFit (u b : ℚ) : Bool :=
  decide (|u / b - (jsRound (u / b) : ℚ)| * b ≤ 1/2)

/-- Base size in cm for a multiplier-category entry: the fixed 8.6 x 5.4
constant for business cards and labels, otherwise parsed from the size label. -/
def baseSizeCm (item : PriceItem) : Option (ℚ × ℚ) :=
  if item.kategori = "Kartvizit" ∨ item.kategori = "Etiket" then some (86/10, 54/10)
  else parseSize item.ebat

/-- JS `Number.MAX_VALUE`, the initial accumulator of the layout search. -/
def MAX_VALUE : ℚ := ((2 ^ 1024 - 2 ^ 971 : ℕ) : ℚ)

/-- Divisors `i` of `n` with `i * i ≤ n`, in increasing order: the factor
pairs `(i, n / i)` enumerated by the layout-optimizer loop. -/
def layoutFactors (n : ℕ) : List ℕ :=
  ((List.range n).map (· + 1)).filter (fun i => i * i ≤ n ∧ n % i = 0)

/-- Sheets needed for one factor pair `(r, c)`: both super-tile layouts
(r rows x c cols, and c rows x r cols) against both base orientations. -/
def layoutMolds (userW userH baseW baseH : ℚ) (r c : ℕ) : ℚ :=
  let tW1 := userW * c
  let tH1 := userH * r
  let m1 := jsCeil (tW1 / baseW) * jsCeil (tH1 / baseH)
  let m2 := jsCeil (tW1 / baseH) * jsCeil (tH1 / baseW)
  let tW2 := userW * r
  let tH2 := userH * c
  let m3 := jsCeil (tW2 / baseW) * jsCeil (tH2 / baseH)
  let m4 := jsCeil (tW2 / baseH) * jsCeil (tH2 / baseW)
  ((min (min m1 m2) (min m3 m4) : ℤ) : ℚ)

/-- Running minimum of `f` over a list, started from `MAX_VALUE`
(the accumulator shape of the layout-optimizer loop). -/
def foldlMin (f : ℕ → ℚ) (l : List ℕ) : ℚ :=
  l.foldl (fun acc i => min acc (f i)) MAX_VALUE

/-- The layout optimizer: minimum sheet count over all factor pairs of
`ceil qtyRatio`, both layouts and both base orientations, starting from
`MAX_VALUE` (which survives when the loop body never runs). -/
def bestTotalMolds (userW userH baseW baseH qtyRatio : ℚ) : ℚ :=
  let ratioInt := jsCeil qtyRatio
  if ratioInt ≤ 0 then MAX_VALUE
  else
    foldlMin (fun i => layoutMolds userW userH baseW baseH i (ratioInt.toNat / i))
      (layoutFactors ratioInt.toNat)

/-- The naive per-piece sheet count `ceil(w/bw) * ceil(h/bh)` that the
optimizer is compared against. -/
def naiveMoldsPerPiece (w h bw bh : ℚ) : ℚ :=
  ((jsCeil (w / bw) * jsCeil (h / bh) : ℤ) : ℚ)

/-- The standard-imposition flag: both axes pass the fit test in at least one
of the two orientations (request-as-is against `bW x bH`, in mm, or rotated). -/
def stdFlag (w h bW bH : ℚ) : Bool :=
  (checkFit w bW && checkFit h bH) || (checkFit w bH && checkFit h bW)

/-- The imposed multiplier: product of the rounded ratios (each floored at 1)
of the first orientation that passes; 0 when neither does (never used then). -/
def imposedValue (w h bW bH : ℚ) : ℤ :=
  if checkFit w bW && checkFit h bH then
    max 1 (jsRound (w / bW)) * max 1 (jsRound (h / bH))
  else if checkFit w bH && checkFit h bW then
    max 1 (jsRound (w / bH)) * max 1 (jsRound (h / bW))
  else 0

/-- The final multiplier: ceil of imposed multiplier times quantity ratio in
the standard case, the layout optimizer's sheet count otherwise. -/
def multValue (w h q bW bH : ℚ) (itemQty : ℕ) : ℚ :=
  let qtyRatio : ℚ := q / (itemQty : ℚ)
  if stdFlag w h bW bH then
    ((jsCeil ((imposedValue w h bW bH : ℚ) * qtyRatio) : ℤ) : ℚ)
  else bestTotalMolds w h bW bH qtyRatio

/-- The multiplier / cut branch of `calculatePriceForItem`, for an entry with
determined, nonzero base size `bw x bh` (in cm). -/
def multiplierOutcome (item : PriceItem) (userW userH targetQty bw bh : ℚ) :
    CalcOutcome :=
  let itemQty : ℕ := parseMiktar item.miktar
  let baseW := bw * 10
  let baseH := bh * 10
  { price := parsePriceD item.fiyat * multValue userW userH targetQty baseW baseH itemQty,
    strategy := "multiplier",
    needsCut := !stdFlag userW userH baseW baseH,
    details := CalcDetails.mult (multValue userW userH targetQty baseW baseH itemQty)
      (targetQty / (itemQty : ℚ)),
    baseDims := some (baseW, baseH) }

/-- Source `calculatePriceForItem`: magnet formula for the MGN product,
multiplier / cut logic for the multiplier categories, `none` otherwise and
when the base size cannot be determined. -/
def calculatePriceForItem (item : PriceItem) (userW userH targetQty : ℚ) :
    Option CalcOutcome :=
  if item.kategori = "Magnet" ∧ item.kod = "MGN" then
    some { price := userW * userH * (21/100) * (targetQty / 1000),
           strategy := "formula", needsCut := true,
           details := CalcDetails.formula userW userH }
  else if item.kategori ∈ MULTIPLIER_CATEGORIES then
    match baseSizeCm item with
    | none => none
    | some (bw, bh) =>
      if bw = 0 ∨ bh = 0 then none
      else some (multiplierOutcome item userW userH targetQty bw bh)
  else none

/-- Size-snap suggestion record (numeric fields of the source record; the
formatted display strings are not modelled, the waste components are kept as
raw differences). -/
structure SizeSuggestion where
  w_mm : ℚ
  h_mm : ℚ
  price : ℚ
  savingAmount : ℚ
  savingPercent : ℤ
  isSamePrice : Bool
  wasteW : Option ℚ
  wasteH : Option ℚ
deriving DecidableEq, Inhabited

/-- Previous or next quantity-tier suggestion (price kept numeric). -/
structure QtySuggestion where
  qty : ℤ
  price : ℚ
deriving DecidableEq, Inhabited

/-- One entry of the final result list (source `CalculationResult`). -/
structure CalculationResult where
  paperName : String
  strategy : String
  matchItem : PriceItem
  calculatedPrice : ℚ
  needsCut : Bool
  isExact : Bool
  details : CalcDetails
  baseDims : Option (ℚ × ℚ)
  prevQty : Option QtySuggestion
  nextQty : Option QtySuggestion
  sizeSuggestion : Option SizeSuggestion
deriving DecidableEq, Inhabited

/-- The two error outcomes of the calculation. -/
inductive CalcError where
  | invalidInput
  | noResults
deriving DecidableEq

/-- Source `getPaperTypeGroup`: the segment before the first hyphen of the
description, trimmed; the magnet category collapses to a single group. -/
def getPaperTypeGroup (desc cat : String) : String :=
  if cat = "Magnet" then "Magnet"
  else ((desc.splitOn "-").headD "").trim

/-- Append an item to the group with the given key, creating the group at the
end when absent (JS object insertion order for non-integer-like keys). -/
def insertGroup (gs : List (String × List PriceItem)) (key : String) (item : PriceItem) :
    List (String × List PriceItem) :=
  match gs with
  | [] => [(key, [item])]
  | (k, its) :: rest =>
    if k = key then (k, its ++ [item]) :: rest
    else (k, its) :: insertGroup rest key item

/-- One grouping step: skip non-MGN magnet items, otherwise file the item
under its paper-type key. -/
def groupStep (category : String) (gs : List (String × List PriceItem))
    (item : PriceItem) : List (String × List PriceItem) :=
  if category = "Magnet" ∧ item.kod ≠ "MGN" then gs
  else
    insertGroup gs
      (if category = "Magnet" then "Özel Ebat Magnet"
       else getPaperTypeGroup item.aciklama category) item

/-- Group the category's items by paper type; in the magnet category only
MGN-coded items are kept, under a single synthetic group. -/
def buildGroups (categoryItems : List PriceItem) (category : String) :
    List (String × List PriceItem) :=
  categoryItems.foldl (groupStep category) []

/-- One best-candidate step: keep the strictly cheaper outcome. -/
def bestStep (w h q : ℚ) (best : Option (CalcOutcome × PriceItem))
    (item : PriceItem) : Option (CalcOutcome × PriceItem) :=
  match calculatePriceForItem item w h q with
  | none => best
  | some res =>
    match best with
    | none => some (res, item)
    | some br => if res.price < br.1.price then some (res, item) else some br

/-- Best (lowest-price, first wins ties) outcome among the group's candidate
items. -/
def bestResultFor (items : List PriceItem) (w h q : ℚ) :
    Option (CalcOutcome × PriceItem) :=
  items.foldl (bestStep w h q) none

/-- Does the item's parsed quantity digits equal the tier `q`
(JS strict equality, `NaN` never matches)? -/
def miktarMatches (i : PriceItem) (q : ℤ) : Bool :=
  match parseMiktarRaw i.miktar with
  | some n => decide ((n : ℤ) = q)
  | none => false

/-- Pick the representative item for a size: exact tier match, else the
1000 tier, else the first item of the size. -/
def itemForSize (sizeItems : List PriceItem) (q : ℤ) : Option PriceItem :=
  match sizeItems.find? (fun i => miktarMatches i q) with
  | some i => some i
  | none =>
    match sizeItems.find? (fun i => miktarMatches i 1000) with
    | some i => some i
    | none => sizeItems.head?

/-- Snap target for the requested size against base dimensions: the rounded
(floored at 1) multiples of the base, accepted within the 10 mm window and
only when at least 0.5 mm away from the request on some axis. -/
def checkSnapDims (targetW targetH baseW baseH : ℚ) : Option (ℚ × ℚ) :=
  let snapW := ((max 1 (jsRound (targetW / baseW)) : ℤ) : ℚ) * baseW
  let snapH := ((max 1 (jsRound (targetH / baseH)) : ℤ) : ℚ) * baseH
  if |targetW - snapW| ≤ 10 ∧ |targetH - snapH| ≤ 10 then
    if 1/2 ≤ |targetW - snapW| ∨ 1/2 ≤ |targetH - snapH| then some (snapW, snapH)
    else none
  else none

/-- Build the suggestion record for an accepted snap. -/
def mkSuggestion (w_mm h_mm currentPrice w h resPrice : ℚ) (isCheaper isSame : Bool) :
    SizeSuggestion :=
  { w_mm := w, h_mm := h, price := resPrice,
    savingAmount := currentPrice - resPrice,
    savingPercent := if isCheaper then jsRound ((currentPrice - resPrice) / currentPrice * 100) else 0,
    isSamePrice := isSame,
    wasteW := if 1/10 ≤ |w_mm - w| then some |w_mm - w| else none,
    wasteH := if 1/10 ≤ |h_mm - h| then some |h_mm - h| else none }

/-- Source `evaluateSuggestion`: price the snapped size and keep it when it is
strictly cheaper, or equal-priced turning a custom cut into a standard fit,
and not worse than the best snap so far. -/
def evaluateSuggestion (itemToUse : PriceItem) (w_mm h_mm : ℚ) (q : ℤ)
    (currentPrice : ℚ) (curCut : Bool) (w h : ℚ) (best : Option SizeSuggestion) :
    Option SizeSuggestion :=
  match calculatePriceForItem itemToUse w h (q : ℚ) with
  | none => best
  | some res =>
    if res.price < currentPrice ∨ (res.price = currentPrice ∧ curCut = true ∧ res.needsCut = false) then
      match best with
      | none =>
        some (mkSuggestion w_mm h_mm currentPrice w h res.price
          (decide (res.price < currentPrice))
          (decide (res.price = currentPrice ∧ curCut = true ∧ res.needsCut = false)))
      | some b =>
        if res.price ≤ b.price then
          some (mkSuggestion w_mm h_mm currentPrice w h res.price
            (decide (res.price < currentPrice))
            (decide (res.price = currentPrice ∧ curCut = true ∧ res.needsCut = false)))
        else some b
    else best

/-- One step of the size-snap search: handle one distinct size label. -/
def snapForSize (category : String) (items : List PriceItem) (w h : ℚ) (q : ℤ)
    (currentPrice : ℚ) (curCut : Bool) (best : Option SizeSuggestion) (sStr : String) :
    Option SizeSuggestion :=
  let sizeItems := items.filter (fun i => i.ebat = sStr)
  match itemForSize sizeItems q with
  | none => best
  | some itemToUse =>
    let base :=
      if category = "Kartvizit" ∨ category = "Etiket" then some ((86 : ℚ), (54 : ℚ))
      else
        match parseSize itemToUse.ebat with
        | some s => some (s.1 * 10, s.2 * 10)
        | none => none
    match base with
    | none => best
    | some bd =>
      if bd.1 = 0 ∨ bd.2 = 0 then best
      else
        let best1 :=
          match checkSnapDims w h bd.1 bd.2 with
          | some sd => evaluateSuggestion itemToUse w h q currentPrice curCut sd.1 sd.2 best
          | none => best
        match checkSnapDims w h bd.2 bd.1 with
        | some sd => evaluateSuggestion itemToUse w h q currentPrice curCut sd.1 sd.2 best1
        | none => best1

/-- First-occurrence deduplication, as iteration over a JS `Set`. -/
def dedupFirst (l : List String) : List String :=
  l.foldl (fun acc x => if x ∈ acc then acc else acc ++ [x]) []

/-- The size-snap suggestion for a group: best accepted snap over all distinct
sizes and both orientations; never computed for the magnet category. -/
def sizeSuggestionFor (category : String) (items : List PriceItem) (w h : ℚ)
    (q : ℤ) (currentPrice : ℚ) (curCut : Bool) : Option SizeSuggestion :=
  if category = "Magnet" then none
  else
    (dedupFirst (items.map (fun i => i.ebat))).foldl
      (snapForSize category items w h q currentPrice curCut) none

/-- Source `findBestPriceForQty`: candidates with the exact tier, else the
1000 tier, else the group's first item; minimum price strictly below
`MAX_VALUE`. -/
def findBestPriceForQty (items : List PriceItem) (w h : ℚ) (targetQ : ℤ) : Option ℚ :=
  let qItems := items.filter (fun i => miktarMatches i targetQ)
  let qc1 := if qItems.isEmpty then items.filter (fun i => miktarMatches i 1000) else qItems
  let qCandidates :=
    if qc1.isEmpty then (match items with | [] => [] | x :: _ => [x]) else qc1
  let st :=
    qCandidates.foldl
      (fun (st : ℚ × Bool) cand =>
        match calculatePriceForItem cand w h (targetQ : ℚ) with
        | none => st
        | some r => if r.price < st.1 then (r.price, true) else st)
      (MAX_VALUE, false)
  if st.2 then some st.1 else none

/-- JS `Array.prototype.indexOf`: position or -1. -/
def jsIndexOf (l : List ℤ) (x : ℤ) : ℤ :=
  match l.findIdx? (fun y => y = x) with
  | some i => (i : ℤ)
  | none => -1

/-- The previous quantity tier proposed for a request, when any. -/
def prevTierFor (targetQty : ℤ) : Option ℤ :=
  let idx := jsIndexOf QUANTITY_OPTIONS targetQty
  if 0 < idx then some (QUANTITY_OPTIONS.getD (idx - 1).toNat 0) else none

/-- The next quantity tier proposed for a request, when any; at quantity 2000
the 3000 tier is skipped in favour of 4000 when 4000 is offered. -/
def nextTierFor (targetQty : ℤ) : Option ℤ :=
  let idx := jsIndexOf QUANTITY_OPTIONS targetQty
  if idx < (QUANTITY_OPTIONS.length : ℤ) - 1 then
    let nQty := QUANTITY_OPTIONS.getD (idx + 1).toNat 0
    some (if targetQty = 2000 ∧ nQty = 3000 ∧ 4000 ∈ QUANTITY_OPTIONS then 4000 else nQty)
  else none

/-- Assemble the result for one paper-type group: best candidate price,
size-snap suggestion, and neighbouring quantity-tier prices. -/
def resultForGroup (category : String) (w h : ℚ) (targetQty : ℤ)
    (paperName : String) (items : List PriceItem) : Option CalculationResult :=
  match bestResultFor items w h (targetQty : ℚ) with
  | none => none
  | some br =>
    let calcResult := br.1
    let sizeSuggestion :=
      sizeSuggestionFor category items w h targetQty calcResult.price calcResult.needsCut
    let prevQtyRes :=
      (prevTierFor targetQty).bind fun pQty =>
        (findBestPriceForQty items w h pQty).map fun p => QtySuggestion.mk pQty p
    let nextQtyRes :=
      (nextTierFor targetQty).bind fun nQty =>
        (findBestPriceForQty items w h nQty).map fun p => QtySuggestion.mk nQty p
    some { paperName := paperName, strategy := calcResult.strategy,
           matchItem := br.2, calculatedPrice := calcResult.price,
           needsCut := calcResult.needsCut, isExact := !calcResult.needsCut,
           details := calcResult.details, baseDims := calcResult.baseDims,
           prevQty := prevQtyRes, nextQty := nextQtyRes,
           sizeSuggestion := sizeSuggestion }

/-- The unsorted result list: one result per paper-type group that yields a
priceable outcome. -/
def computeResults (data : List PriceItem) (category : String) (w h : ℚ)
    (targetQty : ℤ) : List CalculationResult :=
  (buildGroups (data.filter (fun i => i.kategori = category)) category).filterMap
    (fun g => resultForGroup category w h targetQty g.1 g.2)

/-- Priority flag of the final sort: 115-gram paper in the brochure category
is pinned first. -/
def isPrio (r : CalculationResult) : Bool :=
  r.matchItem.kategori = "Broşür" && decide ("115".toList <:+: r.paperName.toList)

/-- The total preorder realised by the sort comparator: priority results
first, then ascending price. -/
def resultLE (a b : CalculationResult) : Prop :=
  (isPrio a = true ∧ isPrio b = false) ∨
    (isPrio a = isPrio b ∧ a.calculatedPrice ≤ b.calculatedPrice)

instance : DecidableRel resultLE := fun a b => by
  unfold resultLE
  infer_instance

/-- The final sort: a stable sort by the comparator (JS `Array.sort` is
stable, so it is realised by insertion sort over `resultLE`). -/
def sortResults (l : List CalculationResult) : List CalculationResult :=
  l.insertionSort resultLE

/-- Falsiness of a parsed JS number: `NaN` or 0. -/
def falsyNum (o : Option ℚ) : Bool :=
  match o with
  | none => true
  | some x => decide (x = 0)

/-- Falsiness of a parsed JS integer: `NaN` or 0. -/
def falsyInt (o : Option ℤ) : Bool :=
  match o with
  | none => true
  | some x => decide (x = 0)

/-- Source `handleCalculate`: validate the request, compute per-group
results, and return them sorted, or one of the two errors. -/
def handleCalculate (data : List PriceItem) (category width height quantity : String) :
    List CalculationResult × Option CalcError :=
  let w? := jsParseFloatCore (replaceFirstChar ',' '.' width.toList)
  let h? := jsParseFloatCore (replaceFirstChar ',' '.' height.toList)
  let q? := jsParseInt quantity
  if falsyNum w? || falsyNum h? || falsyInt q? then ([], some CalcError.invalidInput)
  else
    let rs := computeResults data category (w?.getD 0) (h?.getD 0) (q?.getD 0)
    if rs.isEmpty then ([], some CalcError.noResults)
    else (sortResults rs, none)

/-- A business-card catalog entry used to instantiate the theorems below. -/
def demoCard : PriceItem :=
  ⟨"Kartvizit", "8.6x5.4 cm", "KV1", "Mat Selefon - 350 gr", "1.000 Adet", "550"⟩

/-- A brochure entry whose parsed base sheet is 2 mm x 2.5 mm, small enough
that the 0.5 mm tolerance admits both orientations at once. -/
def demoBrochure : PriceItem :=
  ⟨"Broşür", "0.2x0.25", "BR1", "Mat Kuşe - deneme", "1.000", "100"⟩

/-- The magnet custom-size entry. -/
def demoMagnet : PriceItem :=
  ⟨"Magnet", "", "MGN", "Özel Ebat Magnet", "1.000", "0"⟩

/-- The spec-side fit condition: the requested length is within 0.5 mm of
some integer multiple of the base length. -/
def nearMultiple (u b : ℚ) : Prop := ∃ k : ℤ, |u - (k : ℚ) * b| ≤ 1/2

/-- The spec-side standard-fit condition: both axes near-multiples in at
least one of the two orientations. -/
def specStandardFit (w h bw bh : ℚ) : Prop :=
  (nearMultiple w bw ∧ nearMultiple h bh) ∨ (nearMultiple w bh ∧ nearMultiple h bw)

/-- The imposed multiplier of the orientation the evaluator selects
(request-as-is preferred): product of the two rounded ratios, each floored
at 1. -/
def imposedMultiplierOf (w h bw bh : ℚ) : ℤ :=
  if checkFit w bw && checkFit h bh then
    max 1 (jsRound (w / bw)) * max 1 (jsRound (h / bh))
  else max 1 (jsRound (w / bh)) * max 1 (jsRound (h / bw))

example : jsParseFloat "90" = some 90 := by with_unfolding_all rfl
example : jsParseFloat "-5" = some (-5) := by with_unfolding_all rfl
example : jsParseFloat "1.5e2" = some 150 := by with_unfolding_all rfl
example : jsParseFloat "abc" = none := by with_unfolding_all rfl
example : parsePriceQ "1.250,50 TL" = some (2501/2) := by with_unfolding_all rfl
example : parseSize "8.6x5.4 cm" = some (86/10, 54/10) := by with_unfolding_all rfl
example : parseMiktar "1.000 Adet" = 1000 := by with_unfolding_all rfl

/-! ## General lemmas about the embedded operations -/

lemma foldl_min_le_init (f : ℕ → ℚ) (l : List ℕ) :
    ∀ acc : ℚ, l.foldl (fun a i => min a (f i)) acc ≤ acc := by
  induction l with
  | nil => intro acc; simp
  | cons x xs ih =>
    intro acc
    simp only [List.foldl_cons]
    exact le_trans (ih (min acc (f x))) (min_le_left _ _)

lemma foldl_min_le_mem (f : ℕ → ℚ) (l : List ℕ) :
    ∀ (acc : ℚ) (x : ℕ), x ∈ l → l.foldl (fun a i => min a (f i)) acc ≤ f x := by
  induction l with
  | nil => intro _ x hx; cases hx
  | cons y ys ih =>
    intro acc x hx
    simp only [List.foldl_cons]
    rcases List.mem_cons.mp hx with h | h
    · subst h
      exact le_trans (foldl_min_le_init f ys _) (min_le_right _ _)
    · exact ih _ x h

lemma le_foldl_min (f : ℕ → ℚ) (l : List ℕ) (c : ℚ) :
    ∀ acc : ℚ, c ≤ acc → (∀ i ∈ l, c ≤ f i) →
      c ≤ l.foldl (fun a i => min a (f i)) acc := by
  induction l with
  | nil => intro acc hacc _; simpa using hacc
  | cons y ys ih =>
    intro acc hacc hl
    simp only [List.foldl_cons]
    exact ih _ (le_min hacc (hl y (List.mem_cons_self y ys)))
      (fun i hi => hl i (List.mem_cons_of_mem _ hi))

lemma foldlMin_le (f : ℕ → ℚ) (l : List ℕ) (x : ℕ) (hx : x ∈ l) :
    foldlMin f l ≤ f x :=
  foldl_min_le_mem f l MAX_VALUE x hx

lemma le_foldlMin (f : ℕ → ℚ) (l : List ℕ) (c : ℚ) (hc : c ≤ MAX_VALUE)
    (h : ∀ i ∈ l, c ≤ f i) : c ≤ foldlMin f l :=
  le_foldl_min f l c MAX_VALUE hc h

lemma one_le_MAX_VALUE : (1 : ℚ) ≤ MAX_VALUE := by
  unfold MAX_VALUE
  norm_num

lemma one_mem_layoutFactors (n : ℕ) (hn : 1 ≤ n) : 1 ∈ layoutFactors n := by
  unfold layoutFactors
  rw [List.mem_filter]
  constructor
  · rw [List.mem_map]
    exact ⟨0, by simpa using hn, rfl⟩
  · simp [Nat.one_le_iff_ne_zero] at hn ⊢
    omega

lemma layoutFactors_bounds (n i : ℕ) (hi : i ∈ layoutFactors n) :
    1 ≤ i ∧ i ≤ n ∧ n % i = 0 := by
  unfold layoutFactors at hi
  rw [List.mem_filter] at hi
  obtain ⟨hmem, hcond⟩ := hi
  rw [List.mem_map] at hmem
  obtain ⟨a, ha, rfl⟩ := hmem
  rw [List.mem_range] at ha
  simp only [decide_eq_true_eq] at hcond
  refine ⟨by omega, ?_, hcond.2⟩
  nlinarith [hcond.1]

/-! ## Claim C2: the magnet pricing formula -/

/-- C2.  Every request priced against the magnet custom-size entry (category
"Magnet", code "MGN") gets price `w * h * 0.21 * (qty / 1000)`, is always
flagged as needing a custom cut, and in particular 100 x 150 mm at quantity
2000 costs 6300. -/
theorem claim_C2 :
    (∀ (item : PriceItem) (w h q : ℚ), item.kategori = "Magnet" → item.kod = "MGN" →
      calculatePriceForItem item w h q =
        some ⟨w * h * (21/100) * (q / 1000), "formula", true, CalcDetails.formula w h, none⟩) ∧
    (calculatePriceForItem demoMagnet 100 150 2000).map (fun o => o.price) = some 6300 := by
  constructor
  · intro item w h q h1 h2
    unfold calculatePriceForItem
    rw [if_pos ⟨h1, h2⟩]
  · with_unfolding_all rfl

/-- Closed instance of C2 discharging its hypotheses at the magnet entry. -/
theorem claim_C2_witness :
    calculatePriceForItem demoMagnet 100 150 2000 =
      some ⟨100 * 150 * (21/100) * (2000 / 1000), "formula", true,
        CalcDetails.formula 100 150, none⟩ :=
  claim_C2.1 demoMagnet 100 150 2000 rfl rfl

/-! ## Claim C3: the layout-optimizer bound -/

/-- C3 fails as stated for fractional piece counts: with a 10 x 10 piece on a
10 x 10 sheet and piece count 3/2, the optimizer returns 2 sheets, which
exceeds the naive bound 1 x 3/2. -/
theorem claim_C3_counterexample :
    ¬ bestTotalMolds 10 10 10 10 (3/2) ≤ naiveMoldsPerPiece 10 10 10 10 * (3/2) :=
  of_decide_eq_true (by with_unfolding_all rfl)

/-- C3 (amended).  For positive piece and sheet dimensions and positive piece
count `k`, the optimizer's multiplier is at most the naive per-piece
multiplier times `ceil k` (the linear bound evaluated at the integer piece
count the optimizer actually lays out). -/
theorem claim_C3 (w h bw bh k : ℚ) (hw : 0 < w) (hh : 0 < h)
    (hbw : 0 < bw) (hbh : 0 < bh) (hk : 0 < k) :
    bestTotalMolds w h bw bh k ≤ naiveMoldsPerPiece w h bw bh * ((jsCeil k : ℤ) : ℚ) := by
  have hceil : 0 < jsCeil k := by
    unfold jsCeil
    exact Int.ceil_pos.mpr hk
  unfold bestTotalMolds
  rw [if_neg (by omega : ¬ jsCeil k ≤ 0)]
  set n : ℕ := (jsCeil k).toNat with hn
  have hn1 : 1 ≤ n := by omega
  have hcast : ((n : ℤ) : ℚ) = ((jsCeil k : ℤ) : ℚ) := by
    have : (n : ℤ) = jsCeil k := Int.toNat_of_nonneg hceil.le
    rw [this]
  have hmem : 1 ∈ layoutFactors n := one_mem_layoutFactors n hn1
  refine le_trans (foldlMin_le _ _ 1 hmem) ?_
  rw [Nat.div_one]
  -- bound the first layout by the naive linear bound
  unfold layoutMolds naiveMoldsPerPiece
  have hm1 : jsCeil (w * (n : ℚ) / bw) ≤ (n : ℤ) * jsCeil (w / bw) := by
    unfold jsCeil
    rw [Int.ceil_le]
    push_cast
    have heq : w * (n : ℚ) / bw = (n : ℚ) * (w / bw) := by ring
    rw [heq]
    exact mul_le_mul_of_nonneg_left (Int.le_ceil _) (by positivity)
  have hh1 : (0 : ℤ) < jsCeil (h / bh) := by
    unfold jsCeil
    exact Int.ceil_pos.mpr (by positivity)
  have hcast1 : ((1 : ℕ) : ℚ) = (1 : ℚ) := by norm_num
  have hstep : jsCeil (w * (n : ℚ) / bw) * jsCeil (h * ((1 : ℕ) : ℚ) / bh) ≤
      ((n : ℤ) * jsCeil (w / bw)) * jsCeil (h / bh) := by
    rw [hcast1, mul_one]
    exact mul_le_mul_of_nonneg_right hm1 hh1.le
  have hmin : min (min (jsCeil (w * (n : ℚ) / bw) * jsCeil (h * ((1 : ℕ) : ℚ) / bh))
        (jsCeil (w * (n : ℚ) / bh) * jsCeil (h * ((1 : ℕ) : ℚ) / bw)))
      (min (jsCeil (w * ((1 : ℕ) : ℚ) / bw) * jsCeil (h * (n : ℚ) / bh))
        (jsCeil (w * ((1 : ℕ) : ℚ) / bh) * jsCeil (h * (n : ℚ) / bw))) ≤
      ((n : ℤ) * jsCeil (w / bw)) * jsCeil (h / bh) :=
    le_trans (le_trans (min_le_left _ _) (min_le_left _ _)) hstep
  calc ((min (min (jsCeil (w * (n : ℚ) / bw) * jsCeil (h * ((1 : ℕ) : ℚ) / bh))
          (jsCeil (w * (n : ℚ) / bh) * jsCeil (h * ((1 : ℕ) : ℚ) / bw)))
        (min (jsCeil (w * ((1 : ℕ) : ℚ) / bw) * jsCeil (h * (n : ℚ) / bh))
          (jsCeil (w * ((1 : ℕ) : ℚ) / bh) * jsCeil (h * (n : ℚ) / bw))) : ℤ) : ℚ)
      ≤ ((((n : ℤ) * jsCeil (w / bw)) * jsCeil (h / bh) : ℤ) : ℚ) := by exact_mod_cast hmin
    _ = ((jsCeil (w / bw) * jsCeil (h / bh) : ℤ) : ℚ) * ((jsCeil k : ℤ) : ℚ) := by
        rw [← hcast]; push_cast; ring

/-- Closed instance of C3 discharging its hypotheses at the counterexample
geometry, where the amended bound 1 x ceil(3/2) = 2 is attained. -/
theorem claim_C3_witness :
    bestTotalMolds 10 10 10 10 (3/2) ≤ naiveMoldsPerPiece 10 10 10 10 * ((jsCeil (3/2) : ℤ) : ℚ) :=
  claim_C3 10 10 10 10 (3/2) (by norm_num) (by norm_num) (by norm_num) (by norm_num) (by norm_num)

/-! ## Membership chains through the pipeline -/

lemma foldl_bestStep_spec (w h q : ℚ) (P : CalcOutcome × PriceItem → Prop) :
    ∀ (l : List PriceItem) (acc : Option (CalcOutcome × PriceItem)),
      (∀ p, acc = some p → P p) →
      (∀ it ∈ l, ∀ res, calculatePriceForItem it w h q = some res → P (res, it)) →
      ∀ p, l.foldl (bestStep w h q) acc = some p → P p := by
  intro l
  induction l with
  | nil => intro acc hacc _ p hp; exact hacc p hp
  | cons x xs ih =>
    intro acc hacc hl p hp
    simp only [List.foldl_cons] at hp
    refine ih (bestStep w h q acc x) ?_ (fun it hit => hl it (List.mem_cons_of_mem _ hit)) p hp
    intro p' hp'
    unfold bestStep at hp'
    cases hcalc : calculatePriceForItem x w h q with
    | none =>
      rw [hcalc] at hp'
      exact hacc _ hp'
    | some res =>
      rw [hcalc] at hp'
      cases acc with
      | none =>
        dsimp only at hp'
        simp only [Option.some.injEq] at hp'
        rw [← hp']
        exact hl x (List.mem_cons_self x xs) res hcalc
      | some br =>
        dsimp only at hp'
        by_cases hlt : res.price < br.1.price
        · rw [if_pos hlt] at hp'
          simp only [Option.some.injEq] at hp'
          rw [← hp']
          exact hl x (List.mem_cons_self x xs) res hcalc
        · rw [if_neg hlt] at hp'
          exact hacc _ hp'

lemma bestResultFor_spec (items : List PriceItem) (w h q : ℚ) (p : CalcOutcome × PriceItem)
    (hp : bestResultFor items w h q = some p) :
    p.2 ∈ items ∧ calculatePriceForItem p.2 w h q = some p.1 := by
  refine foldl_bestStep_spec w h q
    (fun p => p.2 ∈ items ∧ calculatePriceForItem p.2 w h q = some p.1)
    items none (by intro p hp; cases hp) ?_ p hp
  intro it hit res hres
  exact ⟨hit, hres⟩

lemma insertGroup_mem (gs : List (String × List PriceItem)) (key : String)
    (item : PriceItem) :
    ∀ g ∈ insertGroup gs key item, ∀ i ∈ g.2,
      (∃ g0 ∈ gs, i ∈ g0.2) ∨ i = item := by
  induction gs with
  | nil =>
    intro g hg i hi
    unfold insertGroup at hg
    simp only [List.mem_singleton] at hg
    subst hg
    simp only [List.mem_singleton] at hi
    exact Or.inr hi
  | cons hd tl ih =>
    intro g hg i hi
    unfold insertGroup at hg
    by_cases hk : hd.1 = key
    · rw [if_pos hk] at hg
      rcases List.mem_cons.mp hg with hG | hG
      · subst hG
        simp only at hi
        rcases List.mem_append.mp hi with hI | hI
        · exact Or.inl ⟨hd, List.mem_cons_self hd tl, hI⟩
        · simp only [List.mem_singleton] at hI
          exact Or.inr hI
      · exact Or.inl ⟨g, List.mem_cons_of_mem _ hG, hi⟩
    · rw [if_neg hk] at hg
      rcases List.mem_cons.mp hg with hG | hG
      · subst hG
        exact Or.inl ⟨hd, List.mem_cons_self _ _, hi⟩
      · rcases ih g hG i hi with ⟨g0, hg0, hI⟩ | hI
        · exact Or.inl ⟨g0, List.mem_cons_of_mem _ hg0, hI⟩
        · exact Or.inr hI

lemma foldl_groupStep_spec (category : String) (P : PriceItem → Prop) :
    ∀ (l : List PriceItem) (gs0 : List (String × List PriceItem)),
      (∀ g ∈ gs0, ∀ i ∈ g.2, P i) → (∀ i ∈ l, P i) →
      ∀ g ∈ l.foldl (groupStep category) gs0, ∀ i ∈ g.2, P i := by
  intro l
  induction l with
  | nil => intro gs0 h0 _ g hg i hi; exact h0 g hg i hi
  | cons x xs ih =>
    intro gs0 h0 hl g hg i hi
    simp only [List.foldl_cons] at hg
    refine ih (groupStep category gs0 x) ?_
      (fun i hi => hl i (List.mem_cons_of_mem _ hi)) g hg i hi
    intro g' hg' i' hi'
    unfold groupStep at hg'
    by_cases hc : category = "Magnet" ∧ x.kod ≠ "MGN"
    · rw [if_pos hc] at hg'
      exact h0 g' hg' i' hi'
    · rw [if_neg hc] at hg'
      rcases insertGroup_mem gs0 _ x g' hg' i' hi' with ⟨g0, hg0, hI⟩ | hI
      · exact h0 g0 hg0 i' hI
      · rw [hI]
        exact hl x (List.mem_cons_self x xs)

lemma buildGroups_mem (l : List PriceItem) (category : String) :
    ∀ g ∈ buildGroups l category, ∀ i ∈ g.2, i ∈ l := by
  unfold buildGroups
  exact foldl_groupStep_spec category (fun i => i ∈ l) l []
    (by intro g hg; cases hg) (fun i hi => hi)

lemma resultForGroup_eq (cat : String) (w h : ℚ) (q : ℤ) (pn : String)
    (items : List PriceItem) (r : CalculationResult)
    (hr : resultForGroup cat w h q pn items = some r) :
    ∃ br, bestResultFor items w h (q : ℚ) = some br ∧
      r = { paperName := pn, strategy := br.1.strategy, matchItem := br.2,
            calculatedPrice := br.1.price, needsCut := br.1.needsCut,
            isExact := !br.1.needsCut, details := br.1.details,
            baseDims := br.1.baseDims,
            prevQty := (prevTierFor q).bind fun pQty =>
              (findBestPriceForQty items w h pQty).map fun p => QtySuggestion.mk pQty p,
            nextQty := (nextTierFor q).bind fun nQty =>
              (findBestPriceForQty items w h nQty).map fun p => QtySuggestion.mk nQty p,
            sizeSuggestion :=
              sizeSuggestionFor cat items w h q br.1.price br.1.needsCut } := by
  unfold resultForGroup at hr
  cases hbr : bestResultFor items w h (q : ℚ) with
  | none => rw [hbr] at hr; cases hr
  | some br =>
    rw [hbr] at hr
    exact ⟨br, rfl, (Option.some.inj hr).symm⟩

lemma mem_computeResults (data : List PriceItem) (cat : String) (w h : ℚ) (q : ℤ)
    (r : CalculationResult) (hmem : r ∈ computeResults data cat w h q) :
    ∃ pn items, (pn, items) ∈ buildGroups (data.filter (fun i => i.kategori = cat)) cat ∧
      resultForGroup cat w h q pn items = some r := by
  unfold computeResults at hmem
  rcases List.mem_filterMap.mp hmem with ⟨g, hg, hr⟩
  exact ⟨g.1, g.2, hg, hr⟩

lemma mem_sortResults (l : List CalculationResult) (r : CalculationResult) :
    r ∈ sortResults l ↔ r ∈ l := by
  unfold sortResults
  exact (List.perm_insertionSort resultLE l).mem_iff

lemma handleCalculate_results_cases (data : List PriceItem)
    (cat width height quantity : String) :
    (handleCalculate data cat width height quantity).1 = [] ∨
      (handleCalculate data cat width height quantity).1 =
        sortResults (computeResults data cat
          ((jsParseFloatCore (replaceFirstChar ',' '.' width.toList)).getD 0)
          ((jsParseFloatCore (replaceFirstChar ',' '.' height.toList)).getD 0)
          ((jsParseInt quantity).getD 0)) := by
  unfold handleCalculate
  dsimp only
  split_ifs with h1 h2
  · exact Or.inl rfl
  · exact Or.inl rfl
  · exact Or.inr rfl

lemma mem_handleCalculate (data : List PriceItem) (cat width height quantity : String)
    (r : CalculationResult) (hmem : r ∈ (handleCalculate data cat width height quantity).1) :
    r ∈ computeResults data cat
      ((jsParseFloatCore (replaceFirstChar ',' '.' width.toList)).getD 0)
      ((jsParseFloatCore (replaceFirstChar ',' '.' height.toList)).getD 0)
      ((jsParseInt quantity).getD 0) := by
  rcases handleCalculate_results_cases data cat width height quantity with hc | hc
  · rw [hc] at hmem; cases hmem
  · rw [hc] at hmem
    exact (mem_sortResults _ r).mp hmem

/-! ## Claim C7: the 2000 to 4000 next-tier rule -/

lemma nextTierFor_2000 : nextTierFor 2000 = some 4000 := by
  with_unfolding_all rfl

/-- C7.  Whenever a request at quantity 2000 produces a next-quantity-tier
suggestion, the proposed tier is 4000 (3000 is skipped; 4000 is in the fixed
tier list). -/
theorem claim_C7 (data : List PriceItem) (cat width height quantity : String)
    (r : CalculationResult) (s : QtySuggestion)
    (hq : jsParseInt quantity = some 2000)
    (hmem : r ∈ (handleCalculate data cat width height quantity).1)
    (hs : r.nextQty = some s) :
    s.qty = 4000 := by
  have hmem2 := mem_handleCalculate data cat width height quantity r hmem
  rw [hq] at hmem2
  obtain ⟨pn, items, -, hrg⟩ := mem_computeResults data cat _ _ 2000 r hmem2
  obtain ⟨br, -, hr⟩ := resultForGroup_eq cat _ _ 2000 pn items r hrg
  rw [hr] at hs
  dsimp only at hs
  rw [nextTierFor_2000] at hs
  simp only [Option.some_bind] at hs
  cases hfb : findBestPriceForQty items
      ((jsParseFloatCore (replaceFirstChar ',' '.' width.toList)).getD 0)
      ((jsParseFloatCore (replaceFirstChar ',' '.' height.toList)).getD 0) 4000 with
  | none => rw [hfb] at hs; cases hs
  | some p =>
    rw [hfb] at hs
    simp only [Option.map_some', Option.some.injEq] at hs
    rw [← hs]

lemma getD_zero_mem {a : Type} [Inhabited a] (l : List a) (hl : l ≠ []) :
    l.getD 0 default ∈ l := by
  cases l with
  | nil => exact absurd rfl hl
  | cons x xs => simp [List.getD]

/-- Closed instance of C7: a business-card request at quantity 2000 yields a
next-tier suggestion, and its tier is 4000. -/
theorem claim_C7_witness :
    (((handleCalculate [demoCard] "Kartvizit" "90" "54" "2000").1.getD 0
        default).nextQty.getD default).qty = 4000 :=
  claim_C7 [demoCard] "Kartvizit" "90" "54" "2000"
    ((handleCalculate [demoCard] "Kartvizit" "90" "54" "2000").1.getD 0 default)
    (((handleCalculate [demoCard] "Kartvizit" "90" "54" "2000").1.getD 0
        default).nextQty.getD default)
    (by with_unfolding_all rfl)
    (getD_zero_mem _ (by
      have hlen : (handleCalculate [demoCard] "Kartvizit" "90" "54" "2000").1.length = 1 := by
        with_unfolding_all rfl
      exact List.length_pos.mp (by rw [hlen]; norm_num)))
    (by with_unfolding_all rfl)

/-! ## Claim C10: non-tier quantities -/

lemma jsIndexOf_not_mem (l : List ℤ) (x : ℤ) (hx : x ∉ l) :
    jsIndexOf l x = -1 := by
  unfold jsIndexOf
  have : l.findIdx? (fun y => y = x) = none := by
    rw [List.findIdx?_eq_none_iff]
    intro y hy
    simp only [decide_eq_false_iff_not]
    intro hyx
    exact hx (hyx ▸ hy)
  rw [this]

lemma prevTierFor_not_mem (q : ℤ) (hq : q ∉ QUANTITY_OPTIONS) :
    prevTierFor q = none := by
  unfold prevTierFor
  rw [jsIndexOf_not_mem _ _ hq]
  norm_num

lemma nextTierFor_not_mem (q : ℤ) (hq : q ∉ QUANTITY_OPTIONS) :
    nextTierFor q = some 1000 := by
  unfold nextTierFor
  rw [jsIndexOf_not_mem _ _ hq]
  have h2000 : ¬ (q = 2000 ∧ QUANTITY_OPTIONS.getD (-1 + 1).toNat 0 = 3000 ∧
      4000 ∈ QUANTITY_OPTIONS) := by
    rintro ⟨rfl, -, -⟩
    exact hq (by decide)
  rw [if_pos (by decide : (-1 : ℤ) < (QUANTITY_OPTIONS.length : ℤ) - 1)]
  dsimp only
  rw [if_neg h2000]
  decide

/-- C10.  A validly parsed request whose quantity is not one of the ten fixed
tiers is not rejected (no `InvalidInput`), gets no previous-quantity
suggestion, and any next-quantity suggestion proposes tier 1000 (since the
tier-index lookup yields -1, the `idx + 1` access reads the first tier). -/
theorem claim_C10 (data : List PriceItem) (cat width height quantity : String) (q : ℤ)
    (hq : jsParseInt quantity = some q) (hq0 : q ≠ 0) (hqn : q ∉ QUANTITY_OPTIONS)
    (hw : falsyNum (jsParseFloatCore (replaceFirstChar ',' '.' width.toList)) = false)
    (hh : falsyNum (jsParseFloatCore (replaceFirstChar ',' '.' height.toList)) = false) :
    (handleCalculate data cat width height quantity).2 ≠ some CalcError.invalidInput ∧
    ∀ r ∈ (handleCalculate data cat width height quantity).1,
      r.prevQty = none ∧ ∀ s : QtySuggestion, r.nextQty = some s → s.qty = 1000 := by
  have hfq : falsyInt (jsParseInt quantity) = false := by
    rw [hq]
    unfold falsyInt
    simp [hq0]
  constructor
  · unfold handleCalculate
    dsimp only
    rw [hw, hh, hfq]
    split_ifs with h1 h2
    · simp at h1
    · intro hcontra; cases hcontra
    · intro hcontra; cases hcontra
  · intro r hmem
    have hmem2 := mem_handleCalculate data cat width height quantity r hmem
    rw [hq] at hmem2
    obtain ⟨pn, items, -, hrg⟩ := mem_computeResults data cat _ _ q r hmem2
    obtain ⟨br, -, hr⟩ := resultForGroup_eq cat _ _ q pn items r hrg
    constructor
    · rw [hr]
      dsimp only
      rw [prevTierFor_not_mem q hqn]
      rfl
    · intro s hs
      rw [hr] at hs
      dsimp only at hs
      rw [nextTierFor_not_mem q hqn] at hs
      simp only [Option.some_bind] at hs
      cases hfb : findBestPriceForQty items
          ((jsParseFloatCore (replaceFirstChar ',' '.' width.toList)).getD 0)
          ((jsParseFloatCore (replaceFirstChar ',' '.' height.toList)).getD 0) 1000 with
      | none => rw [hfb] at hs; cases hs
      | some p =>
        rw [hfb] at hs
        simp only [Option.map_some', Option.some.injEq] at hs
        rw [← hs]

/-- Closed instance of C10 at quantity 1500: not rejected, no previous-tier
suggestion, and the next-tier suggestion proposes 1000. -/
theorem claim_C10_witness :
    (handleCalculate [demoCard] "Kartvizit" "90" "54" "1500").2 ≠
        some CalcError.invalidInput ∧
      ((handleCalculate [demoCard] "Kartvizit" "90" "54" "1500").1.getD 0
          default).prevQty = none ∧
      ((((handleCalculate [demoCard] "Kartvizit" "90" "54" "1500").1.getD 0
          default).nextQty.getD default).qty = 1000) := by
  have h := claim_C10 [demoCard] "Kartvizit" "90" "54" "1500" 1500
    (by with_unfolding_all rfl) (by decide)
    (of_decide_eq_true (by with_unfolding_all rfl))
    (by with_unfolding_all rfl) (by with_unfolding_all rfl)
  have hm := h.2 ((handleCalculate [demoCard] "Kartvizit" "90" "54" "1500").1.getD 0 default)
    (getD_zero_mem _ (by
      have hlen : (handleCalculate [demoCard] "Kartvizit" "90" "54" "1500").1.length = 1 := by
        with_unfolding_all rfl
      exact List.length_pos.mp (by rw [hlen]; norm_num)))
  exact ⟨h.1, hm.1, hm.2 _ (by with_unfolding_all rfl)⟩

/-! ## Claim C6: input validation -/

/-- C6 fails as stated for negative inputs: width "-5" parses to the
non-positive value -5, yet the computation is not rejected as invalid input
(the JS guard only catches falsy values, that is `NaN` and 0). -/
theorem claim_C6_counterexample :
    jsParseFloat "-5" = some (-5) ∧ ((-5 : ℚ) ≤ 0) ∧
      (handleCalculate [] "Broşür" "-5" "10" "1000").2 ≠ some CalcError.invalidInput :=
  ⟨by with_unfolding_all rfl, by norm_num,
    of_decide_eq_true (by with_unfolding_all rfl)⟩

/-- C6 (amended).  The computation reports `InvalidInput`, and then returns
no results, exactly when the width, the height, or the quantity parses to
`NaN` (missing or unparseable) or to zero; negative values pass the guard. -/
theorem claim_C6 (data : List PriceItem) (cat width height quantity : String) :
    ((handleCalculate data cat width height quantity).2 = some CalcError.invalidInput ↔
      (falsyNum (jsParseFloatCore (replaceFirstChar ',' '.' width.toList)) = true ∨
       falsyNum (jsParseFloatCore (replaceFirstChar ',' '.' height.toList)) = true ∨
       falsyInt (jsParseInt quantity) = true)) ∧
    ((falsyNum (jsParseFloatCore (replaceFirstChar ',' '.' width.toList)) = true ∨
      falsyNum (jsParseFloatCore (replaceFirstChar ',' '.' height.toList)) = true ∨
      falsyInt (jsParseInt quantity) = true) →
      handleCalculate data cat width height quantity = ([], some CalcError.invalidInput)) := by
  unfold handleCalculate
  dsimp only
  by_cases hg : (falsyNum (jsParseFloatCore (replaceFirstChar ',' '.' width.toList)) ||
      falsyNum (jsParseFloatCore (replaceFirstChar ',' '.' height.toList)) ||
      falsyInt (jsParseInt quantity)) = true
  · rw [if_pos hg]
    simp only [Bool.or_eq_true] at hg
    constructor
    · exact ⟨fun _ => by tauto, fun _ => rfl⟩
    · intro _; rfl
  · rw [if_neg hg]
    simp only [Bool.or_eq_true] at hg
    push_neg at hg
    obtain ⟨⟨hgw, hgh⟩, hgq⟩ := hg
    constructor
    · constructor
      · intro he
        split_ifs at he <;> cases he
      · intro hor
        rcases hor with h | h | h
        · exact absurd h hgw
        · exact absurd h hgh
        · exact absurd h hgq
    · intro hor
      rcases hor with h | h | h
      · exact absurd h hgw
      · exact absurd h hgh
      · exact absurd h hgq

/-- Closed instance of C6 at an empty (missing) width: the computation is
rejected with `InvalidInput` and returns no results. -/
theorem claim_C6_witness :
    handleCalculate [] "Broşür" "" "10" "1000" = ([], some CalcError.invalidInput) :=
  (claim_C6 [] "Broşür" "" "10" "1000").2 (Or.inl (by with_unfolding_all rfl))

/-! ## Claim C9: orientation symmetry -/

lemma stdFlag_swap (w h bW bH : ℚ) : stdFlag h w bW bH = stdFlag w h bW bH := by
  unfold stdFlag
  rw [Bool.and_comm (checkFit h bW) (checkFit w bH),
    Bool.and_comm (checkFit h bH) (checkFit w bW), Bool.or_comm]

lemma layoutMolds_swap (w h bW bH : ℚ) (r c : ℕ) :
    layoutMolds h w bW bH r c = layoutMolds w h bW bH r c := by
  unfold layoutMolds
  dsimp only
  congr 1
  rw [mul_comm (jsCeil (h * (c : ℚ) / bW)) (jsCeil (w * (r : ℚ) / bH)),
    mul_comm (jsCeil (h * (c : ℚ) / bH)) (jsCeil (w * (r : ℚ) / bW)),
    mul_comm (jsCeil (h * (r : ℚ) / bW)) (jsCeil (w * (c : ℚ) / bH)),
    mul_comm (jsCeil (h * (r : ℚ) / bH)) (jsCeil (w * (c : ℚ) / bW))]
  rw [min_comm (jsCeil (w * (r : ℚ) / bH) * jsCeil (h * (c : ℚ) / bW))
      (jsCeil (w * (r : ℚ) / bW) * jsCeil (h * (c : ℚ) / bH)),
    min_comm (jsCeil (w * (c : ℚ) / bH) * jsCeil (h * (r : ℚ) / bW))
      (jsCeil (w * (c : ℚ) / bW) * jsCeil (h * (r : ℚ) / bH))]
  rw [min_comm]

lemma bestTotalMolds_swap (w h bW bH ratio : ℚ) :
    bestTotalMolds h w bW bH ratio = bestTotalMolds w h bW bH ratio := by
  unfold bestTotalMolds
  simp only [layoutMolds_swap]

lemma imposedValue_swap (w h bW bH : ℚ)
    (hno : ¬((checkFit w bW && checkFit h bH) = true ∧
      (checkFit w bH && checkFit h bW) = true)) :
    imposedValue h w bW bH = imposedValue w h bW bH := by
  unfold imposedValue
  rw [Bool.and_comm (checkFit h bW) (checkFit w bH),
    Bool.and_comm (checkFit h bH) (checkFit w bW)]
  cases ho1 : (checkFit w bW && checkFit h bH) with
  | true =>
    have ho2 : (checkFit w bH && checkFit h bW) = false := by
      cases ho2 : (checkFit w bH && checkFit h bW) with
      | true => exact absurd ⟨ho1, ho2⟩ hno
      | false => rfl
    rw [ho2]
    simp [mul_comm]
  | false =>
    cases ho2 : (checkFit w bH && checkFit h bW) with
    | true => simp [mul_comm]
    | false => simp

lemma multValue_swap (w h q bW bH : ℚ) (itemQty : ℕ)
    (hno : ¬((checkFit w bW && checkFit h bH) = true ∧
      (checkFit w bH && checkFit h bW) = true)) :
    multValue h w q bW bH itemQty = multValue w h q bW bH itemQty := by
  unfold multValue
  dsimp only
  rw [stdFlag_swap, imposedValue_swap w h bW bH hno, bestTotalMolds_swap]

lemma multiplierOutcome_swap (item : PriceItem) (w h q bw bh : ℚ)
    (hno : ¬((checkFit w (bw * 10) && checkFit h (bh * 10)) = true ∧
      (checkFit w (bh * 10) && checkFit h (bw * 10)) = true)) :
    multiplierOutcome item h w q bw bh = multiplierOutcome item w h q bw bh := by
  unfold multiplierOutcome
  dsimp only
  rw [stdFlag_swap, multValue_swap w h q (bw * 10) (bh * 10) (parseMiktar item.miktar) hno]

/-- C9 fails as stated when both orientations pass the fit test against a
non-square base: for the brochure entry with parsed base 2 mm x 2.5 mm, the
request 4.5 x 10 mm and its swap are both standard fits, but the imposed
multipliers differ (8 against 10), so the outcomes differ. -/
theorem claim_C9_counterexample :
    ((calculatePriceForItem demoBrochure (9/2) 10 1000).map fun o => o.needsCut) = some false ∧
    ((calculatePriceForItem demoBrochure 10 (9/2) 1000).map fun o => o.needsCut) = some false ∧
    ((calculatePriceForItem demoBrochure (9/2) 10 1000).map fun o => o.details) =
      some (CalcDetails.mult 8 1) ∧
    ((calculatePriceForItem demoBrochure 10 (9/2) 1000).map fun o => o.details) =
      some (CalcDetails.mult 10 1) :=
  ⟨by with_unfolding_all rfl, by with_unfolding_all rfl,
   by with_unfolding_all rfl, by with_unfolding_all rfl⟩

/-- C9 (amended).  Swapping the requested width and height always yields the
same standard-fit verdict; and when at most one of the two orientations
passes the fit test, the whole outcome — in particular the multiplier — is
unchanged as well.  (When both orientations pass on a non-square base the
evaluator keeps the request-as-is orientation, and the multiplier can
differ, as the counterexample records.) -/
theorem claim_C9 :
    (∀ (item : PriceItem) (w h q : ℚ),
      ((calculatePriceForItem item w h q).map fun o => o.needsCut) =
        ((calculatePriceForItem item h w q).map fun o => o.needsCut)) ∧
    (∀ (item : PriceItem) (w h q bw bh : ℚ),
      ¬(item.kategori = "Magnet" ∧ item.kod = "MGN") →
      baseSizeCm item = some (bw, bh) →
      ¬((checkFit w (bw * 10) && checkFit h (bh * 10)) = true ∧
        (checkFit w (bh * 10) && checkFit h (bw * 10)) = true) →
      calculatePriceForItem item w h q = calculatePriceForItem item h w q) := by
  constructor
  · intro item w h q
    unfold calculatePriceForItem
    by_cases hm : item.kategori = "Magnet" ∧ item.kod = "MGN"
    · rw [if_pos hm, if_pos hm]
      rfl
    · rw [if_neg hm, if_neg hm]
      by_cases hc : item.kategori ∈ MULTIPLIER_CATEGORIES
      · rw [if_pos hc, if_pos hc]
        cases hbase : baseSizeCm item with
        | none => rfl
        | some bd =>
          obtain ⟨bw, bh⟩ := bd
          dsimp only
          by_cases hz : bw = 0 ∨ bh = 0
          · rw [if_pos hz, if_pos hz]
          · rw [if_neg hz, if_neg hz]
            simp only [Option.map_some', Option.some.injEq]
            show (multiplierOutcome item w h q bw bh).needsCut =
              (multiplierOutcome item h w q bw bh).needsCut
            unfold multiplierOutcome
            dsimp only
            rw [stdFlag_swap]
      · rw [if_neg hc, if_neg hc]
  · intro item w h q bw bh hm hbase hno
    unfold calculatePriceForItem
    rw [if_neg hm, if_neg hm]
    by_cases hc : item.kategori ∈ MULTIPLIER_CATEGORIES
    · rw [if_pos hc, if_pos hc, hbase]
      dsimp only
      by_cases hz : bw = 0 ∨ bh = 0
      · rw [if_pos hz, if_pos hz]
      · rw [if_neg hz, if_neg hz]
        rw [multiplierOutcome_swap item w h q bw bh hno]
    · rw [if_neg hc, if_neg hc]

/-- Closed instance of C9's conditional part: for the business-card entry at
90 x 54 mm only, at most one orientation fits, and the outcome is invariant
under swapping the requested sides. -/
theorem claim_C9_witness :
    calculatePriceForItem demoCard 90 54 1000 = calculatePriceForItem demoCard 54 90 1000 :=
  claim_C9.2 demoCard 90 54 1000 (86/10) (54/10)
    (of_decide_eq_true (by with_unfolding_all rfl))
    (by with_unfolding_all rfl)
    (of_decide_eq_true (by with_unfolding_all rfl))

/-! ## Claim C1: the standard-fit characterisation -/

lemma abs_jsRound_le (x : ℚ) (k : ℤ) :
    |x - (jsRound x : ℚ)| ≤ |x - (k : ℚ)| := by
  unfold jsRound
  set r := ⌊x + 1/2⌋ with hrdef
  have h1 : (r : ℚ) ≤ x + 1/2 := Int.floor_le _
  have h2 : x + 1/2 < (r : ℚ) + 1 := Int.lt_floor_add_one _
  have hr : |x - (r : ℚ)| ≤ 1/2 := abs_le.mpr ⟨by linarith, by linarith⟩
  rcases lt_trichotomy k r with hk | hk | hk
  · have hk1 : (k : ℚ) ≤ (r : ℚ) - 1 := by
      have : (k : ℤ) ≤ r - 1 := by omega
      exact_mod_cast this
    have hxk : 1/2 ≤ x - (k : ℚ) := by linarith
    calc |x - (r : ℚ)| ≤ 1/2 := hr
      _ ≤ x - (k : ℚ) := hxk
      _ ≤ |x - (k : ℚ)| := le_abs_self _
  · rw [hk]
  · have hk1 : (r : ℚ) + 1 ≤ (k : ℚ) := by
      have : r + 1 ≤ (k : ℤ) := by omega
      exact_mod_cast this
    have hxk : 1/2 ≤ (k : ℚ) - x := by linarith
    calc |x - (r : ℚ)| ≤ 1/2 := hr
      _ ≤ (k : ℚ) - x := hxk
      _ ≤ |(k : ℚ) - x| := le_abs_self _
      _ = |x - (k : ℚ)| := abs_sub_comm _ _

lemma abs_div_sub_mul (u b k : ℚ) (hb : 0 < b) :
    |u / b - k| * b = |u - k * b| := by
  have hq : u / b - k = (u - k * b) / b := by
    field_simp
    ring
  rw [hq, abs_div, abs_of_pos hb, div_mul_cancel₀ _ (ne_of_gt hb)]

lemma checkFit_iff (u b : ℚ) (hb : 0 < b) :
    checkFit u b = true ↔ nearMultiple u b := by
  unfold checkFit nearMultiple
  rw [decide_eq_true_eq]
  constructor
  · intro hle
    exact ⟨jsRound (u / b), by rwa [← abs_div_sub_mul u b _ hb]⟩
  · rintro ⟨k, hk⟩
    calc |u / b - (jsRound (u / b) : ℚ)| * b
        ≤ |u / b - (k : ℚ)| * b :=
          mul_le_mul_of_nonneg_right (abs_jsRound_le _ k) hb.le
      _ = |u - (k : ℚ) * b| := abs_div_sub_mul u b _ hb
      _ ≤ 1/2 := hk

lemma stdFlag_iff (w h bW bH : ℚ) (hbW : 0 < bW) (hbH : 0 < bH) :
    stdFlag w h bW bH = true ↔ specStandardFit w h bW bH := by
  unfold stdFlag specStandardFit
  rw [Bool.or_eq_true, Bool.and_eq_true, Bool.and_eq_true,
    checkFit_iff w bW hbW, checkFit_iff h bH hbH,
    checkFit_iff w bH hbH, checkFit_iff h bW hbW]

/-- C1.  For a multiplier-category entry (not the magnet formula product)
with determined positive base size and parseable price `p`: the evaluator
declares a standard fit exactly when at least one orientation puts both
requested lengths within 0.5 mm of an integer multiple of the corresponding
base length; and in that case the recorded multiplier is
`ceil(imposedMultiplier * quantityRatio)` with the imposed multiplier the
product of the rounded ratios (each floored at 1) of the selected
orientation, and the price is `p` times that multiplier. -/
theorem claim_C1 (item : PriceItem) (w h q p bw bh : ℚ)
    (hcat : item.kategori ∈ MULTIPLIER_CATEGORIES)
    (hm : ¬(item.kategori = "Magnet" ∧ item.kod = "MGN"))
    (hbase : baseSizeCm item = some (bw, bh))
    (hbw : 0 < bw) (hbh : 0 < bh)
    (hp : parsePriceQ item.fiyat = some p) :
    calculatePriceForItem item w h q = some (multiplierOutcome item w h q bw bh) ∧
    ((multiplierOutcome item w h q bw bh).needsCut = false ↔
      specStandardFit w h (bw * 10) (bh * 10)) ∧
    (specStandardFit w h (bw * 10) (bh * 10) →
      (multiplierOutcome item w h q bw bh).details = CalcDetails.mult
        ((jsCeil ((imposedValue w h (bw * 10) (bh * 10) : ℚ) *
          (q / (parseMiktar item.miktar : ℚ))) : ℤ) : ℚ)
        (q / (parseMiktar item.miktar : ℚ)) ∧
      (multiplierOutcome item w h q bw bh).price = p *
        ((jsCeil ((imposedValue w h (bw * 10) (bh * 10) : ℚ) *
          (q / (parseMiktar item.miktar : ℚ))) : ℤ) : ℚ)) := by
  have hz : ¬(bw = 0 ∨ bh = 0) := by
    rintro (h | h)
    · exact absurd h (ne_of_gt hbw)
    · exact absurd h (ne_of_gt hbh)
  have hW10 : (0 : ℚ) < bw * 10 := by linarith
  have hH10 : (0 : ℚ) < bh * 10 := by linarith
  refine ⟨?_, ?_, ?_⟩
  · unfold calculatePriceForItem
    rw [if_neg hm, if_pos hcat, hbase]
    dsimp only
    rw [if_neg hz]
  · unfold multiplierOutcome
    dsimp only
    rw [Bool.not_eq_false']
    exact stdFlag_iff w h (bw * 10) (bh * 10) hW10 hH10
  · intro hspec
    have hstd : stdFlag w h (bw * 10) (bh * 10) = true :=
      (stdFlag_iff w h (bw * 10) (bh * 10) hW10 hH10).mpr hspec
    have hmv : multValue w h q (bw * 10) (bh * 10) (parseMiktar item.miktar) =
        ((jsCeil ((imposedValue w h (bw * 10) (bh * 10) : ℚ) *
          (q / (parseMiktar item.miktar : ℚ))) : ℤ) : ℚ) := by
      unfold multValue
      rw [if_pos hstd]
    constructor
    · unfold multiplierOutcome
      dsimp only
      rw [hmv]
    · unfold multiplierOutcome
      dsimp only
      rw [hmv]
      unfold parsePriceD
      rw [hp]
      rfl

/-- Closed instance of C1 at the business-card entry, request 86 x 54 mm:
the hypotheses hold and the standard-fit characterisation follows. -/
theorem claim_C1_witness :
    calculatePriceForItem demoCard 86 54 1000 =
        some (multiplierOutcome demoCard 86 54 1000 (86/10) (54/10)) ∧
    ((multiplierOutcome demoCard 86 54 1000 (86/10) (54/10)).needsCut = false ↔
      specStandardFit 86 54 ((86/10) * 10) ((54/10) * 10)) ∧
    (specStandardFit 86 54 ((86/10) * 10) ((54/10) * 10) →
      (multiplierOutcome demoCard 86 54 1000 (86/10) (54/10)).details = CalcDetails.mult
        ((jsCeil ((imposedValue 86 54 ((86/10) * 10) ((54/10) * 10) : ℚ) *
          (1000 / (parseMiktar demoCard.miktar : ℚ))) : ℤ) : ℚ)
        (1000 / (parseMiktar demoCard.miktar : ℚ)) ∧
      (multiplierOutcome demoCard 86 54 1000 (86/10) (54/10)).price = 550 *
        ((jsCeil ((imposedValue 86 54 ((86/10) * 10) ((54/10) * 10) : ℚ) *
          (1000 / (parseMiktar demoCard.miktar : ℚ))) : ℤ) : ℚ)) :=
  claim_C1 demoCard 86 54 1000 550 (86/10) (54/10)
    (of_decide_eq_true (by with_unfolding_all rfl))
    (of_decide_eq_true (by with_unfolding_all rfl))
    (by with_unfolding_all rfl) (by norm_num) (by norm_num)
    (by with_unfolding_all rfl)

/-! ## Claim C5: nonnegative prices, multipliers at least 1 -/

lemma fracVal_nonneg (ds : List Char) : 0 ≤ fracVal ds := by
  unfold fracVal
  positivity

lemma parseMiktar_pos (s : String) : 0 < parseMiktar s := by
  unfold parseMiktar
  cases h : parseMiktarRaw s with
  | none => norm_num
  | some n =>
    cases n with
    | zero => norm_num
    | succ m => exact Nat.succ_pos m

lemma jsParseFloatAux_nonneg (cs : List Char) (x : ℚ)
    (h : jsParseFloatAux cs = some x) : 0 ≤ x := by
  unfold jsParseFloatAux at h
  dsimp only at h
  split_ifs at h with hc
  simp only [Option.some.injEq] at h
  rw [← h]
  apply mul_nonneg
  · exact add_nonneg (Nat.cast_nonneg _) (fracVal_nonneg _)
  · exact (zpow_pos (by norm_num : (0 : ℚ) < 10) _).le

lemma jsParseFloatCore_nonneg_of_sizeChars (cs : List Char) (x : ℚ)
    (hcs : ∀ c ∈ cs, sizeChar c = true)
    (h : jsParseFloatCore cs = some x) : 0 ≤ x := by
  unfold jsParseFloatCore at h
  cases hd : List.dropWhile Char.isWhitespace cs with
  | nil =>
    rw [hd] at h
    dsimp only at h
    exact jsParseFloatAux_nonneg _ _ h
  | cons c u =>
    rw [hd] at h
    dsimp only at h
    have hmem : c ∈ cs := by
      have hc : c ∈ List.dropWhile Char.isWhitespace cs := by
        rw [hd]
        exact List.mem_cons_self c u
      exact (List.dropWhile_sublist Char.isWhitespace).subset hc
    have hsc : sizeChar c = true := hcs c hmem
    have hcm : c ≠ '-' := by
      intro hceq
      rw [hceq] at hsc
      exact absurd hsc (by decide)
    have hcp : c ≠ '+' := by
      intro hceq
      rw [hceq] at hsc
      exact absurd hsc (by decide)
    split at h
    · rename_i u1 heq
      injection heq with h1 h2
      exact absurd h1 hcm
    · rename_i u1 heq
      injection heq with h1 h2
      exact absurd h1 hcp
    · exact jsParseFloatAux_nonneg _ _ h

lemma parseSize_nonneg (s : String) (a b : ℚ) (h : parseSize s = some (a, b)) :
    0 ≤ a ∧ 0 ≤ b := by
  unfold parseSize parseSizeCore at h
  dsimp only at h
  split_ifs at h with h1
  cases hrest : List.dropWhile sizeChar (removeFirstCM
      (List.filter (fun c => decide ¬c.isWhitespace = true)
        (List.map Char.toLower s.toList))) with
  | nil =>
    rw [hrest] at h
    cases h
  | cons x t =>
    rw [hrest] at h
    dsimp only at h
    split_ifs at h with h2 h3
    cases hpa : jsParseFloatCore (List.takeWhile sizeChar (removeFirstCM
        (List.filter (fun c => decide ¬c.isWhitespace = true)
          (List.map Char.toLower s.toList)))) with
    | none =>
      rw [hpa] at h
      cases h
    | some av =>
      cases hpb : jsParseFloatCore (List.takeWhile sizeChar t) with
      | none =>
        rw [hpa, hpb] at h
        cases h
      | some bv =>
        rw [hpa, hpb] at h
        dsimp only at h
        simp only [Option.some.injEq, Prod.mk.injEq] at h
        obtain ⟨rfl, rfl⟩ := h
        constructor
        · exact jsParseFloatCore_nonneg_of_sizeChars _ _
            (fun c hc => List.mem_takeWhile_imp hc) hpa
        · exact jsParseFloatCore_nonneg_of_sizeChars _ _
            (fun c hc => List.mem_takeWhile_imp hc) hpb

lemma one_le_jsCeil_div (u v : ℚ) (hu : 0 < u) (hv : 0 < v) :
    (1 : ℤ) ≤ jsCeil (u / v) := by
  unfold jsCeil
  have := Int.ceil_pos.mpr (div_pos hu hv)
  omega

lemma one_le_mul_int (a b : ℤ) (ha : 1 ≤ a) (hb : 1 ≤ b) : (1 : ℤ) ≤ a * b := by
  nlinarith

lemma one_le_layoutMolds (w h bW bH : ℚ) (r c : ℕ)
    (hw : 0 < w) (hh : 0 < h) (hbW : 0 < bW) (hbH : 0 < bH)
    (hr : 0 < r) (hc : 0 < c) :
    (1 : ℚ) ≤ layoutMolds w h bW bH r c := by
  unfold layoutMolds
  dsimp only
  have hrq : (0 : ℚ) < (r : ℚ) := by exact_mod_cast hr
  have hcq : (0 : ℚ) < (c : ℚ) := by exact_mod_cast hc
  have k1 := one_le_mul_int _ _
    (one_le_jsCeil_div (w * (c : ℚ)) bW (by positivity) hbW)
    (one_le_jsCeil_div (h * (r : ℚ)) bH (by positivity) hbH)
  have k2 := one_le_mul_int _ _
    (one_le_jsCeil_div (w * (c : ℚ)) bH (by positivity) hbH)
    (one_le_jsCeil_div (h * (r : ℚ)) bW (by positivity) hbW)
  have k3 := one_le_mul_int _ _
    (one_le_jsCeil_div (w * (r : ℚ)) bW (by positivity) hbW)
    (one_le_jsCeil_div (h * (c : ℚ)) bH (by positivity) hbH)
  have k4 := one_le_mul_int _ _
    (one_le_jsCeil_div (w * (r : ℚ)) bH (by positivity) hbH)
    (one_le_jsCeil_div (h * (c : ℚ)) bW (by positivity) hbW)
  have : (1 : ℤ) ≤ min (min (jsCeil (w * (c : ℚ) / bW) * jsCeil (h * (r : ℚ) / bH))
      (jsCeil (w * (c : ℚ) / bH) * jsCeil (h * (r : ℚ) / bW)))
      (min (jsCeil (w * (r : ℚ) / bW) * jsCeil (h * (c : ℚ) / bH))
      (jsCeil (w * (r : ℚ) / bH) * jsCeil (h * (c : ℚ) / bW))) :=
    le_min (le_min k1 k2) (le_min k3 k4)
  exact_mod_cast this

lemma one_le_bestTotalMolds (w h bW bH ratio : ℚ)
    (hw : 0 < w) (hh : 0 < h) (hbW : 0 < bW) (hbH : 0 < bH) (hr : 0 < ratio) :
    (1 : ℚ) ≤ bestTotalMolds w h bW bH ratio := by
  unfold bestTotalMolds
  have hceil : 0 < jsCeil ratio := by
    unfold jsCeil
    exact Int.ceil_pos.mpr hr
  rw [if_neg (by omega : ¬ jsCeil ratio ≤ 0)]
  refine le_foldlMin _ _ _ one_le_MAX_VALUE ?_
  intro i hi
  obtain ⟨hi1, hin, hdvd⟩ := layoutFactors_bounds _ i hi
  refine one_le_layoutMolds w h bW bH i _ hw hh hbW hbH (by omega) ?_
  exact Nat.one_le_div_iff (by omega) |>.mpr hin

lemma one_le_imposedValue_of_std (w h bW bH : ℚ) (hstd : stdFlag w h bW bH = true) :
    (1 : ℤ) ≤ imposedValue w h bW bH := by
  unfold imposedValue
  unfold stdFlag at hstd
  rw [Bool.or_eq_true] at hstd
  by_cases h1 : (checkFit w bW && checkFit h bH) = true
  · rw [if_pos h1]
    exact one_le_mul_int _ _ (le_max_left _ _) (le_max_left _ _)
  · rw [if_neg h1]
    rcases hstd with h2 | h2
    · exact absurd h2 h1
    · rw [if_pos h2]
      exact one_le_mul_int _ _ (le_max_left _ _) (le_max_left _ _)

lemma one_le_multValue (w h q bW bH : ℚ) (itemQty : ℕ)
    (hw : 0 < w) (hh : 0 < h) (hbW : 0 < bW) (hbH : 0 < bH)
    (hq : 0 < q) (hqty : 0 < itemQty) :
    (1 : ℚ) ≤ multValue w h q bW bH itemQty := by
  unfold multValue
  dsimp only
  have hr : (0 : ℚ) < q / (itemQty : ℚ) :=
    div_pos hq (by exact_mod_cast hqty)
  split_ifs with hstd
  · have himp := one_le_imposedValue_of_std w h bW bH hstd
    have hpos : (0 : ℚ) < (imposedValue w h bW bH : ℚ) * (q / (itemQty : ℚ)) := by
      refine mul_pos ?_ hr
      exact_mod_cast lt_of_lt_of_le Int.zero_lt_one himp
    have : (1 : ℤ) ≤ jsCeil ((imposedValue w h bW bH : ℚ) * (q / (itemQty : ℚ))) := by
      unfold jsCeil
      have := Int.ceil_pos.mpr hpos
      omega
    exact_mod_cast this
  · exact one_le_bestTotalMolds w h bW bH _ hw hh hbW hbH hr

lemma calc_outcome_bounds (item : PriceItem) (w h q : ℚ) (out : CalcOutcome)
    (hw : 0 < w) (hh : 0 < h) (hq : 0 < q)
    (hp : ∃ p, parsePriceQ item.fiyat = some p ∧ 0 < p)
    (hcalc : calculatePriceForItem item w h q = some out) :
    0 ≤ out.price ∧ ∀ m r, out.details = CalcDetails.mult m r → 1 ≤ m := by
  unfold calculatePriceForItem at hcalc
  split_ifs at hcalc with h1 h2
  · obtain rfl := Option.some.inj hcalc
    constructor
    · positivity
    · intro m r habs
      exact absurd habs (by simp)
  · cases hbase : baseSizeCm item with
    | none =>
      rw [hbase] at hcalc
      cases hcalc
    | some bd =>
      obtain ⟨bw, bh⟩ := bd
      rw [hbase] at hcalc
      dsimp only at hcalc
      split_ifs at hcalc with hz
      obtain rfl := Option.some.inj hcalc
      push_neg at hz
      have hnn : 0 ≤ bw ∧ 0 ≤ bh := by
        unfold baseSizeCm at hbase
        split_ifs at hbase with hke
        · simp only [Option.some.injEq, Prod.mk.injEq] at hbase
          obtain ⟨rfl, rfl⟩ := hbase
          norm_num
        · exact parseSize_nonneg _ _ _ hbase
      have hbw : 0 < bw := lt_of_le_of_ne hnn.1 (Ne.symm hz.1)
      have hbh : 0 < bh := lt_of_le_of_ne hnn.2 (Ne.symm hz.2)
      obtain ⟨p, hpar, hppos⟩ := hp
      have hmv : (1 : ℚ) ≤ multValue w h q (bw * 10) (bh * 10) (parseMiktar item.miktar) :=
        one_le_multValue w h q (bw * 10) (bh * 10) (parseMiktar item.miktar)
          hw hh (by linarith) (by linarith) hq (parseMiktar_pos _)
      unfold multiplierOutcome
      dsimp only
      constructor
      · unfold parsePriceD
        rw [hpar]
        simp only [Option.getD_some]
        nlinarith
      · intro m r heq
        simp only [CalcDetails.mult.injEq] at heq
        rw [← heq.1]
        exact hmv

/-- C5.  For a validly parsed positive request over a catalog whose price
fields parse to positive amounts, every returned result has a nonnegative
(indeed positive) price, and every multiplier-strategy result records a
multiplier at least 1. -/
theorem claim_C5 (data : List PriceItem) (cat width height quantity : String)
    (w h : ℚ) (q : ℤ)
    (hwp : jsParseFloatCore (replaceFirstChar ',' '.' width.toList) = some w) (hw : 0 < w)
    (hhp : jsParseFloatCore (replaceFirstChar ',' '.' height.toList) = some h) (hh : 0 < h)
    (hqp : jsParseInt quantity = some q) (hq : 0 < q)
    (hprices : ∀ item ∈ data, ∃ p, parsePriceQ item.fiyat = some p ∧ 0 < p) :
    ∀ r ∈ (handleCalculate data cat width height quantity).1,
      0 ≤ r.calculatedPrice ∧
      ∀ m ratio, r.details = CalcDetails.mult m ratio → 1 ≤ m := by
  intro r hmem
  have hmem2 := mem_handleCalculate data cat width height quantity r hmem
  rw [hwp, hhp, hqp] at hmem2
  simp only [Option.getD_some] at hmem2
  obtain ⟨pn, items, hgmem, hrg⟩ := mem_computeResults data cat w h q r hmem2
  obtain ⟨br, hbr, hr⟩ := resultForGroup_eq cat w h q pn items r hrg
  obtain ⟨hitem, hcalc⟩ := bestResultFor_spec items w h (q : ℚ) br hbr
  have hdata : br.2 ∈ data := by
    have := buildGroups_mem (data.filter (fun i => i.kategori = cat)) cat
      (pn, items) hgmem br.2 hitem
    exact (List.mem_filter.mp this).1
  have hbounds := calc_outcome_bounds br.2 w h (q : ℚ) br.1 hw hh
    (by exact_mod_cast hq) (hprices br.2 hdata) hcalc
  rw [hr]
  exact hbounds

/-- Closed instance of C5 at the business-card catalog, request 90 x 54 mm,
quantity 1000: the returned price is nonnegative and the recorded
multiplier (2) is at least 1. -/
theorem claim_C5_witness :
    0 ≤ ((handleCalculate [demoCard] "Kartvizit" "90" "54" "1000").1.getD 0
      default).calculatedPrice ∧ (1 : ℚ) ≤ 2 := by
  have h := claim_C5 [demoCard] "Kartvizit" "90" "54" "1000" 90 54 1000
    (by with_unfolding_all rfl) (by norm_num)
    (by with_unfolding_all rfl) (by norm_num)
    (by with_unfolding_all rfl) (by norm_num)
    (by
      intro item hitem
      rw [List.mem_singleton] at hitem
      subst hitem
      exact ⟨550, by with_unfolding_all rfl, by norm_num⟩)
    ((handleCalculate [demoCard] "Kartvizit" "90" "54" "1000").1.getD 0 default)
    (getD_zero_mem _ (by
      have hlen : (handleCalculate [demoCard] "Kartvizit" "90" "54" "1000").1.length = 1 := by
        with_unfolding_all rfl
      exact List.length_pos.mp (by rw [hlen]; norm_num)))
  exact ⟨h.1, h.2 2 1 (by with_unfolding_all rfl)⟩

/-! ## Claim C8: the final ordering -/

lemma bool_eq_false {b : Bool} (h : ¬ b = true) : b = false := by
  cases b
  · rfl
  · exact absurd rfl h

instance : IsTotal CalculationResult resultLE := by
  constructor
  intro a b
  unfold resultLE
  by_cases hpa : isPrio a = true <;> by_cases hpb : isPrio b = true
  · rcases le_total a.calculatedPrice b.calculatedPrice with hle | hle
    · exact Or.inl (Or.inr ⟨by rw [hpa, hpb], hle⟩)
    · exact Or.inr (Or.inr ⟨by rw [hpa, hpb], hle⟩)
  · exact Or.inl (Or.inl ⟨hpa, bool_eq_false hpb⟩)
  · exact Or.inr (Or.inl ⟨hpb, bool_eq_false hpa⟩)
  · rcases le_total a.calculatedPrice b.calculatedPrice with hle | hle
    · exact Or.inl (Or.inr ⟨by rw [bool_eq_false hpa, bool_eq_false hpb], hle⟩)
    · exact Or.inr (Or.inr ⟨by rw [bool_eq_false hpa, bool_eq_false hpb], hle⟩)

instance : IsTrans CalculationResult resultLE := by
  constructor
  intro a b c hab hbc
  unfold resultLE at hab hbc ⊢
  rcases hab with ⟨ha1, ha2⟩ | ⟨ha1, ha2⟩ <;> rcases hbc with ⟨hb1, hb2⟩ | ⟨hb1, hb2⟩
  · rw [ha2] at hb1
    cases hb1
  · exact Or.inl ⟨ha1, hb1 ▸ ha2⟩
  · exact Or.inl ⟨ha1 ▸ hb1, hb2⟩
  · exact Or.inr ⟨ha1.trans hb1, ha2.trans hb2⟩

/-- Comparator ties: same priority class and equal price (the cases where the
JS comparator returns 0 and stability matters). -/
def resultTie (a b : CalculationResult) : Prop :=
  isPrio a = isPrio b ∧ a.calculatedPrice = b.calculatedPrice

instance : DecidableRel resultTie := fun a b => by
  unfold resultTie
  infer_instance

lemma resultTie_le {a b : CalculationResult} (h : resultTie a b) : resultLE a b :=
  Or.inr ⟨h.1, le_of_eq h.2⟩

/-- The comparator lifted to index-tagged results. -/
def pairLE (a b : ℕ × CalculationResult) : Prop := resultLE a.2 b.2

instance : DecidableRel pairLE := fun a b => by
  unfold pairLE
  infer_instance

/-- Tagged stability order: tied elements must keep increasing indices. -/
def pairStable (a b : ℕ × CalculationResult) : Prop :=
  resultTie a.2 b.2 → a.1 < b.1

lemma orderedInsert_stable (x : ℕ × CalculationResult) (m : List (ℕ × CalculationResult))
    (hm : m.Pairwise pairStable)
    (hx : ∀ y ∈ m, resultTie x.2 y.2 → x.1 < y.1) :
    (m.orderedInsert pairLE x).Pairwise pairStable := by
  induction m with
  | nil =>
    simp only [List.orderedInsert_nil]
    exact List.pairwise_singleton _ _
  | cons y ys ih =>
    by_cases hle : pairLE x y
    · simp only [List.orderedInsert, if_pos hle]
      rw [List.pairwise_cons]
      exact ⟨fun z hz => hx z hz, hm⟩
    · simp only [List.orderedInsert, if_neg hle]
      rw [List.pairwise_cons]
      constructor
      · intro z hz
        rcases (List.mem_orderedInsert pairLE).mp hz with hzx | hzy
        · intro htie
          rw [hzx] at htie
          exact absurd (resultTie_le (⟨htie.1.symm, htie.2.symm⟩ : resultTie x.2 y.2)) hle
        · exact (List.pairwise_cons.mp hm).1 z hzy
      · exact ih (List.pairwise_cons.mp hm).2
          (fun z hz => hx z (List.mem_cons_of_mem _ hz))

lemma insertionSort_stable (l : List (ℕ × CalculationResult))
    (hl : l.Pairwise fun a b => a.1 < b.1) :
    (l.insertionSort pairLE).Pairwise pairStable := by
  induction l with
  | nil => exact List.Pairwise.nil
  | cons x xs ih =>
    simp only [List.insertionSort]
    refine orderedInsert_stable x _ (ih (List.pairwise_cons.mp hl).2) ?_
    intro y hy _
    exact (List.pairwise_cons.mp hl).1 y
      ((List.perm_insertionSort pairLE xs).subset hy)

/-- C8.  The final result list is pairwise ordered by the comparator's total
preorder — every brochure-115 priority result before every non-priority one,
and ascending price within each class; the sort is a permutation of the
computed results; and it is stable: runs of comparator-tied elements keep
their original relative order (indices stay increasing). -/
theorem claim_C8 :
    (∀ (data : List PriceItem) (cat width height quantity : String),
      ((handleCalculate data cat width height quantity).1).Pairwise resultLE) ∧
    (∀ l : List CalculationResult, (sortResults l).Perm l) ∧
    (∀ l : List (ℕ × CalculationResult), (l.Pairwise fun a b => a.1 < b.1) →
      (l.insertionSort pairLE).Pairwise pairStable) := by
  refine ⟨?_, ?_, insertionSort_stable⟩
  · intro data cat width height quantity
    rcases handleCalculate_results_cases data cat width height quantity with hc | hc
    · rw [hc]
      exact List.Pairwise.nil
    · rw [hc]
      exact List.sorted_insertionSort resultLE _
  · intro l
    exact List.perm_insertionSort resultLE l

/-- Closed instance of C8's stability part on a two-element tied list, with
the sorted and permuted parts instantiated as well. -/
theorem claim_C8_witness :
    ((handleCalculate [demoCard] "Kartvizit" "90" "54" "1000").1).Pairwise resultLE ∧
    (sortResults []).Perm [] ∧
    (([(0, default), (1, default)] : List (ℕ × CalculationResult)).insertionSort
      pairLE).Pairwise pairStable :=
  ⟨claim_C8.1 [demoCard] "Kartvizit" "90" "54" "1000",
   claim_C8.2.1 [],
   claim_C8.2.2 [(0, default), (1, default)]
     (List.pairwise_cons.mpr ⟨by
        intro b hb
        rw [List.mem_singleton] at hb
        subst hb
        exact Nat.zero_lt_one, List.pairwise_singleton _ _⟩)⟩

/-! ## Claim C4: size-snap suggestions never lose money -/

/-- The invariant of an accepted size-snap suggestion against the current
result's price and cut flag. -/
def suggProp (cur : ℚ) (cut : Bool) (s : SizeSuggestion) : Prop :=
  (s.price < cur ∨ (s.price = cur ∧ s.isSamePrice = true ∧ cut = true)) ∧
  (¬ s.price < cur → s.savingPercent = 0)

lemma mkSuggestion_prop (w_mm h_mm cur w h rp : ℚ) (cut resCut : Bool)
    (hcond : rp < cur ∨ (rp = cur ∧ cut = true ∧ resCut = false)) :
    suggProp cur cut (mkSuggestion w_mm h_mm cur w h rp (decide (rp < cur))
      (decide (rp = cur ∧ cut = true ∧ resCut = false))) := by
  unfold suggProp mkSuggestion
  dsimp only
  constructor
  · rcases hcond with hlt | ⟨heq, hcut, hrc⟩
    · exact Or.inl hlt
    · exact Or.inr ⟨heq, decide_eq_true ⟨heq, hcut, hrc⟩, hcut⟩
  · intro hn
    rw [decide_eq_false hn]
    simp

lemma evaluateSuggestion_prop (itemToUse : PriceItem) (w_mm h_mm : ℚ) (q : ℤ)
    (cur : ℚ) (cut : Bool) (w h : ℚ) (best : Option SizeSuggestion)
    (hbest : ∀ s, best = some s → suggProp cur cut s) :
    ∀ s, evaluateSuggestion itemToUse w_mm h_mm q cur cut w h best = some s →
      suggProp cur cut s := by
  intro s hs
  unfold evaluateSuggestion at hs
  cases hcalc : calculatePriceForItem itemToUse w h (q : ℚ) with
  | none =>
    rw [hcalc] at hs
    exact hbest s hs
  | some res =>
    rw [hcalc] at hs
    dsimp only at hs
    split_ifs at hs with hcond
    · cases best with
      | none =>
        simp only [Option.some.injEq] at hs
        rw [← hs]
        exact mkSuggestion_prop w_mm h_mm cur w h res.price cut res.needsCut hcond
      | some b =>
        dsimp only at hs
        split_ifs at hs with hle
        · simp only [Option.some.injEq] at hs
          rw [← hs]
          exact mkSuggestion_prop w_mm h_mm cur w h res.price cut res.needsCut hcond
        · exact hbest s hs
    · exact hbest s hs

lemma snapForSize_prop (category : String) (items : List PriceItem) (w h : ℚ)
    (q : ℤ) (cur : ℚ) (cut : Bool) (best : Option SizeSuggestion) (sStr : String)
    (hbest : ∀ s, best = some s → suggProp cur cut s) :
    ∀ s, snapForSize category items w h q cur cut best sStr = some s →
      suggProp cur cut s := by
  intro s hs
  unfold snapForSize at hs
  dsimp only at hs
  cases hit : itemForSize (items.filter fun i => i.ebat = sStr) q with
  | none =>
    rw [hit] at hs
    exact hbest s hs
  | some itemToUse =>
    rw [hit] at hs
    dsimp only at hs
    set base := if category = "Kartvizit" ∨ category = "Etiket"
        then some ((86 : ℚ), (54 : ℚ))
        else match parseSize itemToUse.ebat with
          | some sz => some (sz.1 * 10, sz.2 * 10)
          | none => none with hbdef
    cases hb : base with
    | none =>
      rw [hb] at hs
      exact hbest s hs
    | some bd =>
      rw [hb] at hs
      dsimp only at hs
      split_ifs at hs with hz
      · exact hbest s hs
      · have hbest1 : ∀ s, (match checkSnapDims w h bd.1 bd.2 with
            | some sd => evaluateSuggestion itemToUse w h q cur cut sd.1 sd.2 best
            | none => best) = some s → suggProp cur cut s := by
          cases hcs : checkSnapDims w h bd.1 bd.2 with
          | none => exact hbest
          | some sd => exact evaluateSuggestion_prop itemToUse w h q cur cut sd.1 sd.2 best hbest
        cases hcs2 : checkSnapDims w h bd.2 bd.1 with
        | none =>
          rw [hcs2] at hs
          exact hbest1 s hs
        | some sd =>
          rw [hcs2] at hs
          exact evaluateSuggestion_prop itemToUse w h q cur cut sd.1 sd.2 _ hbest1 s hs

lemma foldl_snapForSize_prop (category : String) (items : List PriceItem)
    (w h : ℚ) (q : ℤ) (cur : ℚ) (cut : Bool) :
    ∀ (l : List String) (best : Option SizeSuggestion),
      (∀ s, best = some s → suggProp cur cut s) →
      ∀ s, l.foldl (snapForSize category items w h q cur cut) best = some s →
        suggProp cur cut s := by
  intro l
  induction l with
  | nil => intro best hbest s hs; exact hbest s hs
  | cons x xs ih =>
    intro best hbest s hs
    simp only [List.foldl_cons] at hs
    exact ih _ (snapForSize_prop category items w h q cur cut best x hbest) s hs

lemma sizeSuggestionFor_prop (category : String) (items : List PriceItem)
    (w h : ℚ) (q : ℤ) (cur : ℚ) (cut : Bool) :
    ∀ s, sizeSuggestionFor category items w h q cur cut = some s →
      suggProp cur cut s := by
  intro s hs
  unfold sizeSuggestionFor at hs
  split_ifs at hs with hmag
  exact foldl_snapForSize_prop category items w h q cur cut _ none
    (by intro s hs; cases hs) s hs

/-- C4.  Every size-snap suggestion attached to a result is strictly cheaper
than the result, or has the same price with the same-price flag set (the
snapped size removed the custom cut, which the result needed); and the
reported savings percentage is 0 whenever the suggestion is not strictly
cheaper. -/
theorem claim_C4 (data : List PriceItem) (cat width height quantity : String)
    (r : CalculationResult) (s : SizeSuggestion)
    (hmem : r ∈ (handleCalculate data cat width height quantity).1)
    (hs : r.sizeSuggestion = some s) :
    (s.price < r.calculatedPrice ∨
      (s.price = r.calculatedPrice ∧ s.isSamePrice = true ∧ r.needsCut = true)) ∧
    (¬ s.price < r.calculatedPrice → s.savingPercent = 0) := by
  have hmem2 := mem_handleCalculate data cat width height quantity r hmem
  obtain ⟨pn, items, hgmem, hrg⟩ := mem_computeResults data cat _ _ _ r hmem2
  obtain ⟨br, hbr, hr⟩ := resultForGroup_eq cat _ _ _ pn items r hrg
  rw [hr] at hs ⊢
  dsimp only at hs ⊢
  exact sizeSuggestionFor_prop cat items _ _ _ br.1.price br.1.needsCut s hs

/-- Closed instance of C4: the 90 x 54 business-card request at quantity 1000
carries a size-snap suggestion, and its price is below the result's price or
ties it with an improved fit, with zero percent savings in the tie case. -/
theorem claim_C4_witness :
    (let r := (handleCalculate [demoCard] "Kartvizit" "90" "54" "1000").1.getD 0 default
     let s := r.sizeSuggestion.getD default
     (s.price < r.calculatedPrice ∨
       (s.price = r.calculatedPrice ∧ s.isSamePrice = true ∧ r.needsCut = true)) ∧
     (¬ s.price < r.calculatedPrice → s.savingPercent = 0)) :=
  claim_C4 [demoCard] "Kartvizit" "90" "54" "1000"
    ((handleCalculate [demoCard] "Kartvizit" "90" "54" "1000").1.getD 0 default)
    (((handleCalculate [demoCard] "Kartvizit" "90" "54" "1000").1.getD 0
      default).sizeSuggestion.getD default)
    (getD_zero_mem _ (by
      have hlen : (handleCalculate [demoCard] "Kartvizit" "90" "54" "1000").1.length = 1 := by
        with_unfolding_all rfl
      exact List.length_pos.mp (by rw [hlen]; norm_num)))
    (by with_unfolding_all rfl)
